import Mathlib

/-!
# get-byd-objects: the delta fetch and normalisation of ByD records

A shallow embedding of `src/get-byd-objects/app.js`.

* JavaScript values are the type `JSVal`; the raw records are what the JSON
  parser of the HTTP client delivers, so objects are finite trees of own data
  properties (no sharing between two properties, no accessors).
* Code that can throw is written in `Except JSError`, the conversions that
  `==`, `+` and a template literal apply included; a `try`/`catch` turns the
  error branch into the value the handler returns.
* A promise is represented by the state it finally reaches (`PromiseState`).
* The HTTP client is a parameter of `getBydObject`; `axiosClient` is the
  client of the program over an HTTP adapter, with the status validation the
  program leaves at its default.
-/

namespace BydDelta

/-! ## Values -/

/-- JavaScript values. `num n` is the Number with the integer value `n`
(the numbers the records of this program carry are integers below `2^53`);
`date t` is a Date object with time value `t`, `none` being the invalid date. -/
inductive JSVal where
  | undefined
  | null
  | bool (b : Bool)
  | num (n : Int)
  | str (s : String)
  | date (t : Option Int)
  | arr (xs : List JSVal)
  | obj (props : List (String × JSVal))

/-- What a `throw` carries. `typeError` is raised by the runtime (a member of
`undefined`, a call of something that is no function), `external` is a
rejection reason handed in by a collaborator, `error msg cause` is
`new Error(msg + cause)`. -/
inductive JSError where
  | typeError
  | external (msg : String)
  | error (msg : String) (cause : JSError)

/-- The Number type as far as string conversion needs it: `fin neg p q` is the
double of value `±p/q`. -/
inductive JSNumber where
  | nan
  | inf (neg : Bool)
  | fin (neg : Bool) (p q : Nat)

/-- The state a promise finally reaches; `pending` is a promise that is never
settled. -/
inductive PromiseState (α : Type) where
  | pending
  | fulfilled (value : α)
  | rejected (reason : JSError)

/-! ## Own properties -/

/-- The value of the own property `k`, `undefined` when there is none. -/
def lookup (k : String) : List (String × JSVal) → JSVal
  | [] => .undefined
  | (k', v) :: ps => if k' = k then v else lookup k ps

/-- Assignment to the property `k`: the existing entry is overwritten in place,
a new one is added last. -/
def assign (k : String) (v : JSVal) : List (String × JSVal) → List (String × JSVal)
  | [] => [(k, v)]
  | (k', v') :: ps => if k' = k then (k, v) :: ps else (k', v') :: assign k v ps

/-- Removal of the property `k` (the `delete` operator). -/
def remove (k : String) (ps : List (String × JSVal)) : List (String × JSVal) :=
  ps.filter fun kv => !(kv.1 == k)

/-- The array index a property key denotes: the key is the decimal text of a
natural number, without a leading zero. -/
def arrayIndex (k : String) : Option Nat :=
  match k.data with
  | [] => none
  | ['0'] => some 0
  | c :: cs =>
    if c != '0' && (c :: cs).all (fun d => 48 ≤ d.toNat && d.toNat ≤ 57) then
      some ((c :: cs).foldl (fun a d => 10 * a + (d.toNat - 48)) 0)
    else none

/-- Property read `v[k]` / `v.k`. Reading a member of `undefined` or `null`
throws; objects answer with their own property; arrays with `length` and their
elements. Members that only a prototype supplies are not part of the model, so
primitives and dates answer `undefined`. -/
def getProp (v : JSVal) (k : String) : Except JSError JSVal :=
  match v with
  | .undefined => .error .typeError
  | .null => .error .typeError
  | .obj ps => .ok (lookup k ps)
  | .arr xs =>
    if k = "length" then .ok (.num xs.length)
    else match arrayIndex k with
      | some i => .ok (xs.getD i .undefined)
      | none => .ok .undefined
  | _ => .ok .undefined

/-- Property write `v.k = x` in sloppy mode, returning the object after the
write. Writing to `undefined` or `null` throws, a write to a primitive is
dropped silently; named properties added to an array or a date are not
tracked (the program never reads them back). -/
def setProp (v : JSVal) (k : String) (x : JSVal) : Except JSError JSVal :=
  match v with
  | .undefined => .error .typeError
  | .null => .error .typeError
  | .obj ps => .ok (.obj (assign k x ps))
  | w => .ok w

/-- The operator `delete v[k]` in sloppy mode, returning the object after it. -/
def deleteProp (v : JSVal) (k : String) : Except JSError JSVal :=
  match v with
  | .undefined => .error .typeError
  | .null => .error .typeError
  | .obj ps => .ok (.obj (remove k ps))
  | w => .ok w

/-- The property key of `idAttribute`, an environment variable: an unset one
is `undefined`, which as a key reads "undefined". -/
def propKey (idAttribute : Option String) : String :=
  idAttribute.getD "undefined"

/-! ## Conversion to string -/

/-- Whether the object has an own property of that name. -/
def hasOwn (k : String) (ps : List (String × JSVal)) : Bool :=
  ps.any fun kv => kv.1 == k

mutual
/-- ToString of a value, as `+`, a template literal and `==` apply it. A
plain object is converted through the `toString` it finds: the inherited one
gives "[object Object]"; an own property `toString`, which in parsed JSON is
never a function, leaves no method that returns a primitive, and the
conversion throws a TypeError. An array is converted by `join`. No Date
reaches this conversion, the records and the watermark being parsed JSON; its
text, which depends on the time zone, is stood for by a fixed one. -/
def JSVal.toStr : JSVal → Except JSError String
  | .undefined => .ok "undefined"
  | .null => .ok "null"
  | .bool b => .ok (if b then "true" else "false")
  | .num n => .ok (toString n)
  | .str s => .ok s
  | .date _ => .ok "[object Date]"
  | .arr xs => joinElems xs
  | .obj ps => if hasOwn "toString" ps then .error .typeError else .ok "[object Object]"
/-- Array.prototype.join with the separator ",": the elements are converted
in order, `undefined` and `null` elements give the empty string. -/
def joinElems : List JSVal → Except JSError String
  | [] => .ok ""
  | [x] => elemStr x
  | x :: y :: rest =>
    match elemStr x with
    | .error e => .error e
    | .ok a =>
      match joinElems (y :: rest) with
      | .error e => .error e
      | .ok b => .ok (a ++ "," ++ b)
/-- The text one array element contributes to `join`. -/
def elemStr : JSVal → Except JSError String
  | .undefined => .ok ""
  | .null => .ok ""
  | .bool b => .ok (if b then "true" else "false")
  | .num n => .ok (toString n)
  | .str s => .ok s
  | .date _ => .ok "[object Date]"
  | .arr xs => joinElems xs
  | .obj ps => if hasOwn "toString" ps then .error .typeError else .ok "[object Object]"
end

/-! ## Conversion to number -/

/-- The characters `StrWhiteSpaceChar` of the numeric string grammar: white
space and line terminators. -/
def isStrWhiteSpace (c : Char) : Bool :=
  let n := c.toNat
  n = 0x09 || n = 0x0A || n = 0x0B || n = 0x0C || n = 0x0D || n = 0x20 || n = 0xA0 ||
  n = 0x1680 || (0x2000 ≤ n && n ≤ 0x200A) || n = 0x2028 || n = 0x2029 ||
  n = 0x202F || n = 0x205F || n = 0x3000 || n = 0xFEFF

/-- The text with leading and trailing white space removed. -/
def trimWhiteSpace (cs : List Char) : List Char :=
  ((cs.dropWhile isStrWhiteSpace).reverse.dropWhile isStrWhiteSpace).reverse

/-- A decimal digit. -/
def isDecDigit (c : Char) : Bool := 48 ≤ c.toNat && c.toNat ≤ 57

/-- The value of a digit character in a radix up to 16, `none` for any other
character. -/
def radixDigit (base : Nat) (c : Char) : Option Nat :=
  let n := c.toNat
  let d := if 48 ≤ n && n ≤ 57 then n - 48
    else if 97 ≤ n && n ≤ 102 then n - 87
    else if 65 ≤ n && n ≤ 70 then n - 55
    else 16
  if d < base then some d else none

/-- The natural number a digit string denotes in the given radix. -/
def digitsVal (base : Nat) (cs : List Char) : Nat :=
  cs.foldl (fun a c => base * a + (radixDigit base c).getD 0) 0

/-- Binary logarithm by halving, `fuel` bounding the number of steps. -/
def log2Aux : Nat → Nat → Nat
  | 0, _ => 0
  | fuel + 1, n => if n < 2 then 0 else log2Aux fuel (n / 2) + 1

/-- The integer part of the binary logarithm of a positive number. -/
def log2 (n : Nat) : Nat := log2Aux n n

/-- The integer part of the binary logarithm of `p/q`, for positive `p`, `q`. -/
def floorLog2 (p q : Nat) : Int :=
  let e0 : Int := (log2 p : Int) - (log2 q : Int)
  if (if 0 ≤ e0 then q * 2 ^ e0.toNat ≤ p else q ≤ p * 2 ^ (-e0).toNat) then e0 else e0 - 1

/-- The integer nearest to `a/b`, a tie going to the even one. -/
def roundHalfEven (a b : Nat) : Nat :=
  let f := a / b
  let r := a % b
  if 2 * r < b then f else if b < 2 * r then f + 1 else if f % 2 = 0 then f else f + 1

/-- The double nearest to `p/q` (53 significant bits, exponent at least
`-1022`, ties to even), as a fraction; `none` when it overflows to infinity. -/
def roundDouble (p q : Nat) : Option (Nat × Nat) :=
  if p = 0 then some (0, 1)
  else
    let e := max (floorLog2 p q) (-1022)
    if e ≤ 52 then
      let s := (52 - e).toNat
      some (roundHalfEven (p * 2 ^ s) q, 2 ^ s)
    else
      let s := (e - 52).toNat
      let v := roundHalfEven p (q * 2 ^ s) * 2 ^ s
      if v < 2 ^ 1024 then some (v, 1) else none

/-- The Number denoted by the sign, the digits `m` and the decimal exponent
`e` of a literal: the double nearest to `±m·10^e`. -/
def roundToNumber (neg : Bool) (m : Nat) (e : Int) : JSNumber :=
  let r := if 0 ≤ e then roundDouble (m * 10 ^ e.toNat) 1 else roundDouble m (10 ^ (-e).toNat)
  match r with
  | some (p, q) => .fin neg p q
  | none => .inf neg

/-- A non-empty run of decimal digits. -/
def isDecDigits (cs : List Char) : Bool := !cs.isEmpty && cs.all isDecDigit

/-- The optional `ExponentPart` of a decimal literal: its value, `none` when
the text is no exponent part. -/
def parseExponent : List Char → Option Int
  | [] => some 0
  | c :: rest =>
    if c = 'e' ∨ c = 'E' then
      match rest with
      | '+' :: ds => if isDecDigits ds then some (digitsVal 10 ds) else none
      | '-' :: ds => if isDecDigits ds then some (-(digitsVal 10 ds : Int)) else none
      | ds => if isDecDigits ds then some (digitsVal 10 ds) else none
    else none

/-- The literal `StrUnsignedDecimalLiteral` apart from `Infinity`: digits, an
optional fraction, an optional exponent; the result is the digit string read
as a number and the decimal exponent to apply to it. -/
def parseUnsignedDecimal (cs : List Char) : Option (Nat × Int) :=
  let ip := cs.takeWhile isDecDigit
  match cs.dropWhile isDecDigit with
  | '.' :: r =>
    let fp := r.takeWhile isDecDigit
    if ip.isEmpty && fp.isEmpty then none
    else (parseExponent (r.dropWhile isDecDigit)).map fun e =>
      (digitsVal 10 (ip ++ fp), e - (fp.length : Int))
  | r => if ip.isEmpty then none else (parseExponent r).map fun e => (digitsVal 10 ip, e)

/-- The literal `StrDecimalLiteral`: an optional sign, then `Infinity` or an
unsigned decimal literal. -/
def parseStrDecimal (cs : List Char) : Option JSNumber :=
  let sb : Bool × List Char :=
    match cs with
    | '+' :: r => (false, r)
    | '-' :: r => (true, r)
    | r => (false, r)
  if sb.2 = "Infinity".data then some (.inf sb.1)
  else (parseUnsignedDecimal sb.2).map fun me => roundToNumber sb.1 me.1 me.2

/-- The literal `NonDecimalIntegerLiteral`: `0x`, `0o` or `0b` and digits of
that radix. -/
def parseRadix (cs : List Char) : Option JSNumber :=
  match cs with
  | '0' :: c :: ds =>
    let base := if c = 'x' ∨ c = 'X' then 16 else if c = 'o' ∨ c = 'O' then 8
      else if c = 'b' ∨ c = 'B' then 2 else 0
    if base = 0 || ds.isEmpty || !(ds.all fun d => (radixDigit base d).isSome) then none
    else some (roundToNumber false (digitsVal base ds) 0)
  | _ => none

/-- StringToNumber: white space is trimmed, the empty string is `0`, a numeric
literal is its nearest double, anything else is `NaN`. -/
def stringToNumber (cs : List Char) : JSNumber :=
  let t := trimWhiteSpace cs
  if t.isEmpty then .fin false 0 1
  else match parseStrDecimal t with
    | some x => x
    | none => (parseRadix t).getD .nan

/-- The Number of an integer. -/
def JSNumber.ofInt (n : Int) : JSNumber := .fin (decide (n < 0)) n.natAbs 1

/-- ToNumber of a primitive value. -/
def primNumber : JSVal → JSNumber
  | .null => .fin false 0 1
  | .bool b => .fin false (if b then 1 else 0) 1
  | .num n => .ofInt n
  | .str s => stringToNumber s.data
  | _ => .nan

/-- ToNumber of a value: a plain object or an array is first turned into its
string, which can throw; a Date gives its time value. -/
def toNumber : JSVal → Except JSError JSNumber
  | .arr xs => (JSVal.arr xs).toStr.map fun t => stringToNumber t.data
  | .obj ps => (JSVal.obj ps).toStr.map fun t => stringToNumber t.data
  | .date t =>
    match t with
    | some ms => .ok (.ofInt ms)
    | none => .ok .nan
  | v => .ok (primNumber v)

/-- Comparison of two Numbers: `none` when one of them is `NaN`, else whether
the first is less than, equal to, or greater than the second. -/
def JSNumber.compare : JSNumber → JSNumber → Option Ordering
  | .nan, _ => none
  | _, .nan => none
  | .inf a, .inf b => some (if a = b then .eq else if a then .lt else .gt)
  | .inf a, .fin _ _ _ => some (if a then .lt else .gt)
  | .fin _ _ _, .inf b => some (if b then .gt else .lt)
  | .fin a p q, .fin b r s =>
    let x : Int := (if a then -(p : Int) else p) * s
    let y : Int := (if b then -(r : Int) else r) * q
    some (if x < y then .lt else if x = y then .eq else .gt)

/-- The operator `<` with a Number on the right; the conversion of the left
operand can throw. -/
def lessThan (v : JSVal) (k : Int) : Except JSError Bool :=
  (toNumber v).map fun x => JSNumber.compare x (.ofInt k) == some .lt

/-- The operator `>=` with a Number on the right; the conversion of the left
operand can throw. -/
def greaterEq (v : JSVal) (k : Int) : Except JSError Bool :=
  (toNumber v).map fun x =>
    match JSNumber.compare x (.ofInt k) with
    | some .lt => false
    | some _ => true
    | none => false

/-! ## Loose equality and truthiness -/

/-- Whether the value is an object in the sense of the language (an array, a
date, a plain object). -/
def JSVal.isObject : JSVal → Bool
  | .arr _ => true
  | .obj _ => true
  | .date _ => true
  | _ => false

/-- Whether the value is `null`. -/
def JSVal.isNull : JSVal → Bool
  | .null => true
  | _ => false

/-- Whether the value is `undefined` or `null`. -/
def JSVal.isNullish : JSVal → Bool
  | .undefined => true
  | .null => true
  | _ => false

/-- The operator `==` on two operands that are strings or numbers after the
conversions of the first steps: two strings are compared as texts, everything
else as Numbers. -/
def primEq : JSVal → JSVal → Bool
  | .str a, .str b => a == b
  | x, y => JSNumber.compare (primNumber x) (primNumber y) == some .eq

/-- The conversion `==` applies to an operand before the comparison: a Boolean
becomes its number, an object its string (ToPrimitive), which throws a
TypeError when the object has no method that returns a primitive. -/
def toPrimitive (v : JSVal) : Except JSError JSVal :=
  match v with
  | .bool b => .ok (.num (if b then 1 else 0))
  | .arr xs => (JSVal.arr xs).toStr.map .str
  | .obj ps => (JSVal.obj ps).toStr.map .str
  | .date t => (JSVal.date t).toStr.map .str
  | w => .ok w

/-- The operator `==` (IsLooselyEqual). `undefined` and `null` equal each
other and nothing else, without any conversion. Two objects are equal only
when they are the same object, which two different properties of a parsed
record never are. In every other case the operands are converted, which can
throw, and compared as primitives. -/
def looseEq (x y : JSVal) : Except JSError Bool :=
  if x.isNullish || y.isNullish then .ok (x.isNullish && y.isNullish)
  else if x.isObject && y.isObject then .ok false
  else
    match toPrimitive x with
    | .error e => .error e
    | .ok px =>
      match toPrimitive y with
      | .error e => .error e
      | .ok py => .ok (primEq px py)

/-- ToBoolean, the test of an `if`. -/
def truthy : JSVal → Bool
  | .undefined => false
  | .null => false
  | .bool b => b
  | .num n => n != 0
  | .str s => s != ""
  | _ => true

/-! ## Strings and dates -/

/-- Scan for `String.prototype.lastIndexOf`: `i` is the index of the head of
the list, `acc` the last match so far. -/
def lastIndexOfAux (c : Char) : List Char → Nat → Int → Int
  | [], _, acc => acc
  | x :: xs, i, acc => lastIndexOfAux c xs (i + 1) (if x = c then (i : Int) else acc)

/-- The method `lastIndexOf` with a one-character argument: the index of the
last occurrence, `-1` when there is none. Indexes count characters; both ends
of the slice the program takes fall on an ASCII delimiter or on an end of the
string, so the slice is the one UTF-16 indexes give. -/
def lastIndexOf (cs : List Char) (c : Char) : Int :=
  lastIndexOfAux c cs 0 (-1)

/-- The method `substring(start, end)`: both arguments are clamped to
`[0, length]` and swapped when `start` is the larger. -/
def substring (cs : List Char) (start stop : Int) : List Char :=
  let a := min start.toNat cs.length
  let b := min stop.toNat cs.length
  (cs.drop (min a b)).take (max a b - min a b)

/-- The method `split` with a one-character separator. -/
def splitChars (sep : Char) : List Char → List (List Char)
  | [] => [[]]
  | c :: cs =>
    if c = sep then [] :: splitChars sep cs
    else match splitChars sep cs with
      | [] => [[c]]
      | seg :: segs => (c :: seg) :: segs

/-- TimeClip: a time value is an integer number of milliseconds of magnitude
at most `8.64e15`; everything else is the invalid time. -/
def timeClip : JSNumber → Option Int
  | .fin neg p q =>
    if 8640000000000000 * q < p then none
    else some (if neg then -((p / q : Nat) : Int) else ((p / q : Nat) : Int))
  | _ => none

/-- The constructor `new Date(x)` on a Number. -/
def newDate (x : JSNumber) : JSVal := .date (timeClip x)

/-- Left-padding of a number with zeros to a width. -/
def padZeros (width n : Nat) : String :=
  String.mk (List.replicate (width - (toString n).length) '0') ++ toString n

/-- The civil date (year, month, day of month) of a day number counted from
1970-01-01, in the proleptic Gregorian calendar. -/
def civilFromDays (day : Int) : Int × Nat × Nat :=
  let z := day + 719468
  let era := z / 146097
  let doe := (z % 146097).toNat
  let yoe := (doe - doe / 1460 + doe / 36524 - doe / 146096) / 365
  let doy := doe - (365 * yoe + yoe / 4 - yoe / 100)
  let mp := (5 * doy + 2) / 153
  let d := doy - (153 * mp + 2) / 5 + 1
  let m := if mp < 10 then mp + 3 else mp - 9
  (((yoe : Int) + era * 400) + (if m ≤ 2 then 1 else 0), m, d)

/-- The UTC timestamp of a time value, in the format of
`Date.prototype.toISOString`. -/
def utcTimestamp (t : Int) : String :=
  let ms := (t % 86400000).toNat
  let ymd := civilFromDays (t / 86400000)
  let year := if 0 ≤ ymd.1 ∧ ymd.1 ≤ 9999 then padZeros 4 ymd.1.toNat
    else (if ymd.1 < 0 then "-" else "+") ++ padZeros 6 ymd.1.natAbs
  year ++ "-" ++ padZeros 2 ymd.2.1 ++ "-" ++ padZeros 2 ymd.2.2 ++ "T" ++
    padZeros 2 (ms / 3600000) ++ ":" ++ padZeros 2 (ms / 60000 % 60) ++ ":" ++
    padZeros 2 (ms / 1000 % 60) ++ "." ++ padZeros 3 (ms % 1000) ++ "Z"

/-! ## The record normaliser (`formatData`, `BydTimestampToHumanDate`) -/

/-- The `try` block of `BydTimestampToHumanDate`:
`bydDate.substring(bydDate.lastIndexOf("(") + 1, bydDate.lastIndexOf(")"))`,
then `new Date(timestamp*1)`. Only a string has a callable `substring`; the
product with `1` is the Number of the slice. -/
def BydTimestampToHumanDateTry (bydDate : JSVal) : Except JSError JSVal :=
  match bydDate with
  | .str s =>
    let timestamp := substring s.data (lastIndexOf s.data '(' + 1) (lastIndexOf s.data ')')
    let humanDate := newDate (stringToNumber timestamp)
    .ok humanDate
  | _ => .error .typeError

/-- The function `BydTimestampToHumanDate(bydDate)`: the `catch` block logs and
returns `null`. -/
def BydTimestampToHumanDate (bydDate : JSVal) : JSVal :=
  match BydTimestampToHumanDateTry bydDate with
  | .ok humanDate => humanDate
  | .error _ => .null

/-- The call `v.split(sep)`: only a string has a callable `split`. -/
def splitMethod (v : JSVal) (sep : Char) : Except JSError JSVal :=
  match v with
  | .str s => .ok (.arr ((splitChars sep s.data).map fun seg => .str (String.mk seg)))
  | _ => .error .typeError

/-- The `try` block of `formatData`. `element` is the same object as `elem`,
so every later read of `elem` sees the writes made through `element`; the
single variable `element` carries that object. -/
def formatDataTry (elem : JSVal) (idAttribute : Option String) : Except JSError JSVal := do
  let creation ← getProp elem "CreationDateTime"
  let lastChange ← getProp elem "LastChangeDateTime"
  let same ← looseEq creation lastChange
  let updated := if same then false else true
  let element := elem
  let genericId ← getProp element (propKey idAttribute)
  let element ← setProp element "genericId" genericId
  let element ← setProp element "updated" (.bool updated)
  let metadata ← getProp element "__metadata"
  let type ← getProp metadata "type"
  let segments ← splitMethod type '.'
  let genericType ← getProp segments "1"
  let element ← setProp element "genericType" genericType
  let dateStr ←
    if updated then do
      let v ← getProp element "LastChangeDateTime"
      pure (BydTimestampToHumanDate v)
    else do
      let v ← getProp element "CreationDateTime"
      pure (BydTimestampToHumanDate v)
  let element ← setProp element "dateStr" dateStr
  let element ← deleteProp element "__metadata"
  pure element

/-- The function `formatData(elem, idAttribute, additionalAttributes)`; the
third parameter is never used. The `catch` block logs and returns `null`. -/
def formatData (elem : JSVal) (idAttribute : Option String) : JSVal :=
  match formatDataTry elem idAttribute with
  | .ok element => element
  | .error _ => .null

/-! ## The fetch (`quotes`, `getBydObject`) -/

/-- The environment variables the program reads; `none` is an unset one. -/
structure Env where
  AWS_SAM_LOCAL : Option String
  CONFIG_ID : Option String
  CONFIG_TABLE : Option String
  BYD_ODATA : Option String
  BYD_AUTH : Option String
  BYD_INVOICES : Option String
  BYD_INVOICES_ID : Option String
  BYD_CUSTOMERS : Option String
  BYD_CUSTOMERS_ID : Option String

/-- The `options` object handed to `axios.request`; `params` are the entries
given to `URLSearchParams`, in order. -/
structure RequestOptions where
  method : String
  baseURL : Option String
  url : Option String
  headers : List (String × String)
  params : List (String × String)

/-- The text of an optional string in a concatenation. -/
def optStr (s : Option String) : String := s.getD "undefined"

/-- The function `quotes(val)`: the concatenation converts `val` to a string,
which can throw. -/
def quotes (val : JSVal) : Except JSError String :=
  val.toStr.map fun text => "%27" ++ text ++ "%27"

/-- The value of the `$filter` entry that `getBydObject` builds. -/
def filterParam (lastRun : JSVal) : Except JSError String :=
  (quotes lastRun).map fun quoted => "LastChangeDateTime ge datetimeoffset" ++ quoted

/-- The `options` that `getBydObject` builds, or the error thrown while the
parameters are put together. -/
def requestOptions (env : Env) (lastRun : JSVal) (endpoint idAttribute : Option String) :
    Except JSError RequestOptions :=
  (filterParam lastRun).map fun filter =>
    { method := "GET"
      baseURL := env.BYD_ODATA
      url := endpoint
      headers := [("Accept", "application/json"), ("Content-Type", "application/json"),
        ("Authorization", "Basic " ++ optStr env.BYD_AUTH), ("x-csrf-token", "fetch")]
      params := [("$format", "json"),
        ("$select", optStr idAttribute ++ ",ObjectID,CreationDateTime,LastChangeDateTime"),
        ("$filter", filter)] }

/-- The body of the `forEach` callback: the record is pushed when `formatData`
gave a truthy value. -/
def pushFormatted (idAttribute : Option String) (formatedData : List JSVal) (elem : JSVal) :
    List JSVal :=
  let element := formatData elem idAttribute
  if truthy element then formatedData ++ [element] else formatedData

/-- The success callback of `axios.request(options).then(...)`: the state it
gives the promise of `getBydObject`, or the error it throws. The template
literal of the log line converts `response.status` and `response.statusText`
to strings. In the branch of the status check the message of the error reads
`response.req.getHeader`, which no value of the model can answer as a
function. -/
def onFulfilled (response : JSVal) (idAttribute : Option String) :
    Except JSError (PromiseState (List JSVal)) := do
  let status ← getProp response "status"
  let _ ← status.toStr
  let statusText ← getProp response "statusText"
  let _ ← statusText.toStr
  let statusCode ← getProp response "statusCode"
  let below ← lessThan statusCode 200
  let failed ← if below then pure true else greaterEq statusCode 300
  if failed then do
    let req ← getProp response "req"
    let _getHeader ← getProp req "getHeader"
    throw .typeError
  else do
    let data ← getProp response "data"
    let d ← getProp data "d"
    let results ← getProp d "results"
    match results with
    | .arr elems => pure (.fulfilled (elems.foldl (pushFormatted idAttribute) []))
    | _ => throw .typeError

/-- What one call of a fetching function does: the requests it hands to
`axios.request`, and the state its promise reaches. -/
structure Fetch where
  calls : List RequestOptions
  state : PromiseState (List JSVal)

/-- The function `getBydObject(lastRun, endpoint, idAttribute)`, given the
HTTP client. An error thrown while the parameters are put together leaves the
executor before `axios.request` is called and rejects the promise with that
error. Otherwise there is one request; an error thrown in the success callback
and a rejection of the client both end in the `catch`, which rejects. -/
def getBydObject (axiosRequest : RequestOptions → PromiseState JSVal) (env : Env)
    (lastRun : JSVal) (endpoint idAttribute : Option String) : Fetch :=
  match requestOptions env lastRun endpoint idAttribute with
  | .error err => { calls := [], state := .rejected err }
  | .ok options =>
    { calls := [options]
      state :=
        match axiosRequest options with
        | .pending => .pending
        | .rejected err => .rejected (.error "" err)
        | .fulfilled response =>
          match onFulfilled response idAttribute with
          | .ok state => state
          | .error err => .rejected (.error "" err) }

/-- The response an HTTP adapter hands to the client: the status line and the
body, the body parsed when it is JSON. -/
structure HttpResponse where
  status : Nat
  statusText : String
  data : JSVal

/-- The response object the client passes on. It has no property `statusCode`
and no property `req`; the members `headers`, `config` and `request`, which
the program never reads, are left out. -/
def HttpResponse.toObject (r : HttpResponse) : JSVal :=
  .obj [("data", r.data), ("status", .num r.status), ("statusText", .str r.statusText)]

/-- The client `axios.request` over an HTTP adapter, as the library settles a
response when the options name no `validateStatus`, which those of
`getBydObject` do not: the promise is fulfilled when the status is 0 or lies
in [200, 300), and rejected otherwise. -/
def axiosClient (adapter : RequestOptions → PromiseState HttpResponse)
    (options : RequestOptions) : PromiseState JSVal :=
  match adapter options with
  | .pending => .pending
  | .rejected err => .rejected err
  | .fulfilled r =>
    if r.status = 0 ∨ (200 ≤ r.status ∧ r.status < 300) then .fulfilled r.toObject
    else .rejected (.external ("Request failed with status code " ++ toString r.status))

/-! ## The run (`getConfig`, `getSalesInvoices`, `getCustomers`, `lambdaHandler`) -/

/-- The promise a wrapper builds around `getBydObject(...).then(resolve)`: it
is resolved when the fetch is fulfilled and is never settled otherwise. -/
def resolveOnly (f : Fetch) : Fetch :=
  { calls := f.calls
    state :=
      match f.state with
      | .fulfilled data => .fulfilled data
      | _ => .pending }

/-- The function `getSalesInvoices(lastRun)`. -/
def getSalesInvoices (axiosRequest : RequestOptions → PromiseState JSVal) (env : Env)
    (lastRun : JSVal) : Fetch :=
  resolveOnly (getBydObject axiosRequest env lastRun env.BYD_INVOICES env.BYD_INVOICES_ID)

/-- The function `getCustomers(lastRun)`. -/
def getCustomers (axiosRequest : RequestOptions → PromiseState JSVal) (env : Env)
    (lastRun : JSVal) : Fetch :=
  resolveOnly (getBydObject axiosRequest env lastRun env.BYD_CUSTOMERS env.BYD_CUSTOMERS_ID)

/-- Whether the program runs in local mode: `process.env.AWS_SAM_LOCAL` is a
non-empty string. -/
def isLocal (env : Env) : Bool :=
  match env.AWS_SAM_LOCAL with
  | some s => s != ""
  | none => false

/-- The configuration record of the local mode. -/
def localItem : JSVal :=
  .obj [("lastRun", .obj [("S", .str "2020-09-13T09:31:06.393Z")]),
    ("configId", .obj [("N", .str "0")])]

/-- The function `getConfig()`, given the state of
`dynamo.getItem(params).promise()`. In local mode the promise is resolved
before the store is asked and the later settlement has no effect. -/
def getConfig (env : Env) (getItem : PromiseState JSVal) : PromiseState JSVal :=
  if isLocal env then .fulfilled localItem
  else
    match getItem with
    | .pending => .pending
    | .rejected error => .rejected (.error "Error Loading Condiguration! - " error)
    | .fulfilled data =>
      match getProp data "Item" with
      | .ok item => .fulfilled item
      | .error error => .rejected (.error "Error Loading Condiguration! - " error)

/-- The combinator `Promise.all` on two promises. -/
def promiseAll (a b : PromiseState (List JSVal)) : PromiseState (List JSVal × List JSVal) :=
  match a, b with
  | .rejected e, _ => .rejected e
  | _, .rejected e => .rejected e
  | .fulfilled x, .fulfilled y => .fulfilled (x, y)
  | _, _ => .pending

/-- The response object of the handler. -/
structure Response where
  statusCode : Nat
  body : String

/-- The response assigned at the start of the handler. -/
def startedResponse : Response where
  statusCode := 200
  body := "\x7b\"message\":\"get ByD objects Started\"\x7d"

/-- The expression `data.lastRun.S`. -/
def readLastRun (data : JSVal) : Except JSError JSVal :=
  getProp data "lastRun" >>= fun lastRun => getProp lastRun "S"

/-- One invocation of the handler: the requests handed to `axios.request`, the
two values logged by the callback after `Promise.all` (if it runs), and the
state of the promise the handler returns. -/
structure Run where
  requests : List RequestOptions
  reported : Option (List JSVal × List JSVal)
  result : PromiseState Response

/-- The function `exports.lambdaHandler`. An `await` of a rejected promise and
a throw in `data.lastRun.S` both reach the `catch`, which returns `response`;
an `await` of a promise that is never settled never returns. -/
def lambdaHandler (env : Env) (getItem : PromiseState JSVal)
    (axiosRequest : RequestOptions → PromiseState JSVal) : Run :=
  let response := startedResponse
  match getConfig env getItem with
  | .pending => { requests := [], reported := none, result := .pending }
  | .rejected _ => { requests := [], reported := none, result := .fulfilled response }
  | .fulfilled data =>
    match readLastRun data with
    | .error _ => { requests := [], reported := none, result := .fulfilled response }
    | .ok lastRun =>
      let invoices := getSalesInvoices axiosRequest env lastRun
      let customers := getCustomers axiosRequest env lastRun
      match promiseAll invoices.state customers.state with
      | .pending =>
        { requests := invoices.calls ++ customers.calls, reported := none, result := .pending }
      | .rejected _ =>
        { requests := invoices.calls ++ customers.calls, reported := none,
          result := .fulfilled response }
      | .fulfilled values =>
        { requests := invoices.calls ++ customers.calls, reported := some values,
          result := .fulfilled response }

/-! ## Sample records -/

/-- An invoice changed after its creation. -/
def changedInvoice : JSVal :=
  .obj [("ObjectID", .str "X1"), ("CreationDateTime", .str "/Date(1)/"),
    ("LastChangeDateTime", .str "/Date(2)/"),
    ("__metadata", .obj [("type", .str "ByDOData.Invoice")])]

/-- An invoice whose discriminator has no ".". -/
def undottedInvoice : JSVal :=
  .obj [("ObjectID", .str "X2"), ("CreationDateTime", .str "/Date(1)/"),
    ("LastChangeDateTime", .str "/Date(1)/"),
    ("__metadata", .obj [("type", .str "Invoice")])]

/-- An invoice whose two timestamps are the empty string. -/
def blankDateInvoice : JSVal :=
  .obj [("ObjectID", .str "X3"), ("CreationDateTime", .str ""),
    ("LastChangeDateTime", .str ""),
    ("__metadata", .obj [("type", .str "ByDOData.Invoice")])]

/-- An invoice whose two timestamps are the string "abc(". -/
def openDateInvoice : JSVal :=
  .obj [("ObjectID", .str "X6"), ("CreationDateTime", .str "abc("),
    ("LastChangeDateTime", .str "abc("),
    ("__metadata", .obj [("type", .str "ByDOData.Invoice")])]

/-- A response of the source with the status 200 and three raw records, the
second of which is `null`. -/
def okResponse : JSVal :=
  .obj [("status", .num 200), ("statusText", .str "OK"),
    ("data", .obj [("d", .obj [("results",
      .arr [changedInvoice, .null, undottedInvoice])])])]

/-- An invoice whose creation timestamp is an object with an own property
`toString` (the JSON text `{"toString":0}`). -/
def unprintableInvoice : JSVal :=
  .obj [("ObjectID", .str "X4"), ("CreationDateTime", .obj [("toString", .num 0)]),
    ("LastChangeDateTime", .str "/Date(2)/"),
    ("__metadata", .obj [("type", .str "ByDOData.Invoice")])]

/-- An invoice with an undotted discriminator and the same creation timestamp. -/
def unprintableUndotted : JSVal :=
  .obj [("ObjectID", .str "X5"), ("CreationDateTime", .obj [("toString", .num 0)]),
    ("LastChangeDateTime", .str "/Date(2)/"),
    ("__metadata", .obj [("type", .str "Invoice")])]

/-- An answer of the source with the status 200 and one raw record. -/
def okAnswer : HttpResponse where
  status := 200
  statusText := "OK"
  data := .obj [("d", .obj [("results", .arr [changedInvoice])])]

/-- An answer of the source with the status 200 and the body `{}`. -/
def emptyAnswer : HttpResponse where
  status := 200
  statusText := "OK"
  data := .obj []

/-- An answer of the source with the status 404. -/
def notFoundAnswer : HttpResponse where
  status := 404
  statusText := "Not Found"
  data := .obj [("d", .obj [("results", .arr [changedInvoice])])]

/-- An environment outside the local mode. -/
def sampleEnv : Env where
  AWS_SAM_LOCAL := none
  CONFIG_ID := some "0"
  CONFIG_TABLE := some "config"
  BYD_ODATA := some "https://byd.example/odata"
  BYD_AUTH := some "dXNlcjpwdw=="
  BYD_INVOICES := some "invoices"
  BYD_INVOICES_ID := some "ObjectID"
  BYD_CUSTOMERS := some "customers"
  BYD_CUSTOMERS_ID := some "ObjectID"

/-- A source that fails the request for invoices and answers every other
request with `okResponse`. -/
def sampleAxios (options : RequestOptions) : PromiseState JSVal :=
  if options.url = some "invoices" then .rejected (.external "socket hang up")
  else .fulfilled okResponse

/-- The answer of the store that holds the watermark record. -/
def storedConfig : JSVal :=
  .obj [("Item", localItem)]

/-! ## The words of the specification -/

/-- The second dot-separated segment of a text, in the words of the
specification: what stands between the first "." and the next "." or the end. -/
def secondSegment (cs : List Char) : List Char :=
  ((cs.dropWhile fun c => c != '.').drop 1).takeWhile fun c => c != '.'

/-! ## Own properties: reads after writes -/

theorem lookup_assign_self (k : String) (v : JSVal) (ps : List (String × JSVal)) :
    lookup k (assign k v ps) = v := by
  induction ps with
  | nil => simp [assign, lookup]
  | cons kv ps ih =>
    obtain ⟨k', v'⟩ := kv
    by_cases h : k' = k
    · simp [assign, lookup, h]
    · simp [assign, lookup, h, ih]

theorem lookup_assign_ne {k k' : String} (h : k' ≠ k) (v : JSVal)
    (ps : List (String × JSVal)) : lookup k (assign k' v ps) = lookup k ps := by
  induction ps with
  | nil => simp [assign, lookup, h]
  | cons kv ps ih =>
    obtain ⟨k₁, v₁⟩ := kv
    by_cases h₁ : k₁ = k'
    · subst h₁
      simp [assign, lookup, h]
    · by_cases h₂ : k₁ = k
      · subst h₂
        simp [assign, lookup, h₁]
      · simp [assign, lookup, h₁, h₂, ih]

theorem lookup_remove_self (k : String) (ps : List (String × JSVal)) :
    lookup k (remove k ps) = .undefined := by
  induction ps with
  | nil => simp [remove, lookup]
  | cons kv ps ih =>
    obtain ⟨k₁, v₁⟩ := kv
    by_cases h₁ : k₁ = k
    · simpa [remove, List.filter_cons, h₁] using ih
    · simp only [remove] at ih
      simp [remove, List.filter_cons, h₁, lookup, ih]

theorem lookup_remove_ne {k k' : String} (h : k' ≠ k) (ps : List (String × JSVal)) :
    lookup k (remove k' ps) = lookup k ps := by
  induction ps with
  | nil => simp [remove, lookup]
  | cons kv ps ih =>
    obtain ⟨k₁, v₁⟩ := kv
    simp only [remove] at ih
    by_cases h₁ : k₁ = k'
    · subst h₁
      simp [remove, List.filter_cons, lookup, h, ih]
    · by_cases h₂ : k₁ = k
      · subst h₂
        simp [remove, List.filter_cons, lookup, h₁]
      · simp [remove, List.filter_cons, lookup, h₁, h₂, ih]

/-! ## The record `formatData` builds -/

theorem bind_ok {α β : Type} (a : α) (f : α → Except JSError β) :
    (Except.ok a >>= f) = f a := rfl

theorem bind_error {α β : Type} (e : JSError) (f : α → Except JSError β) :
    ((Except.error e : Except JSError α) >>= f) = Except.error e := rfl

theorem getProp_obj (ps : List (String × JSVal)) (k : String) :
    getProp (.obj ps) k = .ok (lookup k ps) := rfl

theorem setProp_obj (ps : List (String × JSVal)) (k : String) (x : JSVal) :
    setProp (.obj ps) k x = .ok (.obj (assign k x ps)) := rfl

theorem deleteProp_obj (ps : List (String × JSVal)) (k : String) :
    deleteProp (.obj ps) k = .ok (.obj (remove k ps)) := rfl

/-- The metadata is read after `genericId` and `updated` were written, the
timestamps after `genericType` as well: none of these writes touches them. -/
theorem formatDataTry_obj (ps : List (String × JSVal)) (idAttribute : Option String) :
    formatDataTry (.obj ps) idAttribute =
      (looseEq (lookup "CreationDateTime" ps) (lookup "LastChangeDateTime" ps) >>= fun same =>
        getProp (lookup "__metadata" ps) "type" >>= fun type =>
          splitMethod type '.' >>= fun segments =>
            getProp segments "1" >>= fun genericType =>
              pure (.obj (remove "__metadata"
                (assign "dateStr"
                  (BydTimestampToHumanDate
                    (if same then lookup "CreationDateTime" ps
                      else lookup "LastChangeDateTime" ps))
                  (assign "genericType" genericType
                    (assign "updated" (.bool (!same))
                      (assign "genericId" (lookup (propKey idAttribute) ps) ps))))))) := by
  have e1 : ∀ u g, lookup "__metadata" (assign "updated" u (assign "genericId" g ps))
      = lookup "__metadata" ps := by
    intro u g
    rw [lookup_assign_ne (by decide), lookup_assign_ne (by decide)]
  have e2 : ∀ t u g, lookup "LastChangeDateTime"
      (assign "genericType" t (assign "updated" u (assign "genericId" g ps)))
        = lookup "LastChangeDateTime" ps := by
    intro t u g
    rw [lookup_assign_ne (by decide), lookup_assign_ne (by decide), lookup_assign_ne (by decide)]
  have e3 : ∀ t u g, lookup "CreationDateTime"
      (assign "genericType" t (assign "updated" u (assign "genericId" g ps)))
        = lookup "CreationDateTime" ps := by
    intro t u g
    rw [lookup_assign_ne (by decide), lookup_assign_ne (by decide), lookup_assign_ne (by decide)]
  unfold formatDataTry
  simp only [getProp_obj, setProp_obj, deleteProp_obj, bind_ok, e1]
  cases hq : looseEq (lookup "CreationDateTime" ps) (lookup "LastChangeDateTime" ps) with
  | error e => rfl
  | ok same =>
    cases same <;>
      simp [getProp_obj, setProp_obj, deleteProp_obj, bind_ok, e2, e3]

theorem getProp_arr_ok (xs : List JSVal) (k : String) : ∃ v, getProp (.arr xs) k = .ok v := by
  simp only [getProp]
  by_cases h : k = "length"
  · exact ⟨_, if_pos h⟩
  · rw [if_neg h]
    cases arrayIndex k <;> exact ⟨_, rfl⟩

theorem getProp_arr_one (xs : List JSVal) :
    getProp (.arr xs) "1" = .ok (xs.getD 1 .undefined) := by
  have h1 : ¬ ("1" = "length") := by decide
  have h2 : arrayIndex "1" = some 1 := by decide
  simp [getProp, h1, h2]

/-- The segments of a discriminator as the array `split` returns. -/
theorem splitMethod_str (t : String) :
    splitMethod (.str t) '.' =
      .ok (.arr ((splitChars '.' t.data).map fun seg => .str (String.mk seg))) := rfl

theorem formatData_obj_str (ps : List (String × JSVal)) (idAttribute : Option String)
    (t : String) (same : Bool)
    (hq : looseEq (lookup "CreationDateTime" ps) (lookup "LastChangeDateTime" ps) = .ok same)
    (h : getProp (lookup "__metadata" ps) "type" = .ok (.str t)) :
    formatData (.obj ps) idAttribute =
      .obj (remove "__metadata"
        (assign "dateStr"
          (BydTimestampToHumanDate
            (if same then lookup "CreationDateTime" ps else lookup "LastChangeDateTime" ps))
          (assign "genericType"
            (((splitChars '.' t.data).map fun seg => JSVal.str (String.mk seg)).getD 1
              .undefined)
            (assign "updated" (.bool (!same))
              (assign "genericId" (lookup (propKey idAttribute) ps) ps))))) := by
  unfold formatData
  rw [formatDataTry_obj, hq, bind_ok, h, bind_ok, splitMethod_str, bind_ok, getProp_arr_one,
    bind_ok]
  rfl

/-- An error thrown by the comparison of the two timestamps ends in the
`catch`: the record is answered with `null`. -/
theorem formatData_obj_throw (ps : List (String × JSVal)) (idAttribute : Option String)
    (e : JSError)
    (hq : looseEq (lookup "CreationDateTime" ps) (lookup "LastChangeDateTime" ps) = .error e) :
    formatData (.obj ps) idAttribute = .null := by
  unfold formatData
  rw [formatDataTry_obj, hq, bind_error]

/-- The result of `formatData` is `null` or an object built from an object
whose timestamps can be compared and whose discriminator is a string. -/
theorem formatData_null_or_obj (elem : JSVal) (idAttribute : Option String) :
    formatData elem idAttribute = .null ∨
      ∃ ps t same qs, elem = .obj ps ∧
        looseEq (lookup "CreationDateTime" ps) (lookup "LastChangeDateTime" ps) = .ok same ∧
        getProp (lookup "__metadata" ps) "type" = .ok (.str t) ∧
        formatData elem idAttribute = .obj qs := by
  cases elem with
  | obj ps =>
    cases hq : looseEq (lookup "CreationDateTime" ps) (lookup "LastChangeDateTime" ps) with
    | error e => exact Or.inl (formatData_obj_throw ps idAttribute e hq)
    | ok same =>
      cases h : getProp (lookup "__metadata" ps) "type" with
      | error e =>
        left
        unfold formatData
        rw [formatDataTry_obj, hq, bind_ok, h, bind_error]
      | ok type =>
        cases type with
        | str t =>
          exact Or.inr ⟨ps, t, same, _, rfl, hq, h, formatData_obj_str ps idAttribute t same hq h⟩
        | _ =>
          left
          unfold formatData
          rw [formatDataTry_obj, hq, bind_ok, h, bind_ok]
          rfl
  | arr xs =>
    left
    obtain ⟨g, hg⟩ := getProp_arr_ok xs (propKey idAttribute)
    have h1 : getProp (.arr xs) "CreationDateTime" = .ok .undefined := by
      simp [getProp, arrayIndex]
    have h2 : getProp (.arr xs) "LastChangeDateTime" = .ok .undefined := by
      simp [getProp, arrayIndex]
    have h3 : getProp (.arr xs) "__metadata" = .ok .undefined := by
      simp [getProp, arrayIndex]
    have h4 : looseEq .undefined .undefined = .ok true := rfl
    unfold formatData formatDataTry
    simp only [h1, h2, h3, h4, hg, bind_ok, setProp]
    rfl
  | _ => left; rfl

/-! ## The segments of a discriminator -/

theorem splitChars_ne_nil (sep : Char) (cs : List Char) : splitChars sep cs ≠ [] := by
  cases cs with
  | nil => simp [splitChars]
  | cons c cs =>
    by_cases h : c = sep
    · simp [splitChars, h]
    · simp only [splitChars, h, if_false]
      split <;> simp

theorem splitChars_not_mem (sep : Char) (cs : List Char) (h : sep ∉ cs) :
    splitChars sep cs = [cs] := by
  induction cs with
  | nil => rfl
  | cons c cs ih =>
    have hc : ¬ c = sep := fun e => h (by simp [e])
    have hcs : sep ∉ cs := fun e => h (by simp [e])
    simp [splitChars, hc, ih hcs]

theorem splitChars_head (sep : Char) (cs : List Char) :
    (splitChars sep cs).head? = some (cs.takeWhile fun c => c != sep) := by
  induction cs with
  | nil => rfl
  | cons c cs ih =>
    by_cases h : c = sep
    · simp [splitChars, h]
    · simp only [splitChars, h, if_false]
      have hb : (c != sep) = true := by simpa using h
      cases hs : splitChars sep cs with
      | nil => exact absurd hs (splitChars_ne_nil sep cs)
      | cons seg segs =>
        rw [hs] at ih
        simp at ih
        simp [List.takeWhile_cons, hb, ih]

theorem splitChars_second (cs : List Char) (h : '.' ∈ cs) :
    (splitChars '.' cs)[1]? = some (secondSegment cs) := by
  induction cs with
  | nil => simp at h
  | cons c cs ih =>
    by_cases hc : c = '.'
    · subst hc
      have := splitChars_head '.' cs
      cases hs : splitChars '.' cs with
      | nil => exact absurd hs (splitChars_ne_nil '.' cs)
      | cons seg segs =>
        rw [hs] at this
        simp at this
        simp [splitChars, hs, secondSegment, this]
    · have hmem : '.' ∈ cs := by
        rcases List.mem_cons.1 h with e | e
        · exact absurd e.symm hc
        · exact e
      have hb : (c != '.') = true := by simpa using hc
      simp only [splitChars, hc, if_false]
      cases hs : splitChars '.' cs with
      | nil => exact absurd hs (splitChars_ne_nil '.' cs)
      | cons seg segs =>
        have ih' := ih hmem
        rw [hs] at ih'
        simp at ih'
        simp [secondSegment, List.dropWhile_cons, hb] at ih' ⊢
        exact ih'

theorem foldl_pushFormatted (idAttribute : Option String) (elems acc : List JSVal) :
    elems.foldl (pushFormatted idAttribute) acc =
      acc ++ (elems.map fun e => formatData e idAttribute).filter fun v => !v.isNull := by
  induction elems generalizing acc with
  | nil => simp
  | cons e es ih =>
    rw [List.foldl_cons, ih]
    rcases formatData_null_or_obj e idAttribute with h | ⟨ps, t, same, qs, _, _, _, h⟩
    · simp [pushFormatted, h, truthy, JSVal.isNull]
    · simp [pushFormatted, h, truthy, JSVal.isNull]

/-- The part of the success callback behind the status check. -/
theorem onFulfilled_body (response : JSVal) (idAttribute : Option String)
    (seq : List JSVal)
    (h : (getProp response "data" >>= fun data => getProp data "d" >>= fun d =>
        getProp d "results" >>= fun results =>
          match results with
          | .arr elems =>
            (pure (.fulfilled (elems.foldl (pushFormatted idAttribute) [])) :
              Except JSError (PromiseState (List JSVal)))
          | _ => throw .typeError) = .ok (.fulfilled seq)) :
    ∃ raw, (getProp response "data" >>= fun data => getProp data "d" >>= fun d =>
        getProp d "results") = .ok (.arr raw) ∧
      seq = raw.foldl (pushFormatted idAttribute) [] := by
  cases h4 : getProp response "data" with
  | error e => rw [h4, bind_error] at h; cases h
  | ok v4 =>
    rw [h4, bind_ok] at h
    cases h5 : getProp v4 "d" with
    | error e => rw [h5, bind_error] at h; cases h
    | ok v5 =>
      rw [h5, bind_ok] at h
      cases h6 : getProp v5 "results" with
      | error e => rw [h6, bind_error] at h; cases h
      | ok v6 =>
        rw [h6, bind_ok] at h
        rw [bind_ok, h5, bind_ok, h6]
        cases v6 with
        | arr raw =>
          refine ⟨raw, rfl, ?_⟩
          have h' : (Except.ok (PromiseState.fulfilled
              (List.foldl (pushFormatted idAttribute) [] raw)) :
                Except JSError (PromiseState (List JSVal))) =
              Except.ok (PromiseState.fulfilled seq) := h
          injection h' with h'
          injection h' with h'
          exact h'.symm
        | _ => cases h

/-- What the success callback needs to resolve: the envelope holds an array,
and the sequence is that of the `forEach` loop over it. -/
theorem onFulfilled_fulfilled (response : JSVal) (idAttribute : Option String)
    (seq : List JSVal) (h : onFulfilled response idAttribute = .ok (.fulfilled seq)) :
    ∃ raw, (getProp response "data" >>= fun data => getProp data "d" >>= fun d =>
        getProp d "results") = .ok (.arr raw) ∧
      seq = raw.foldl (pushFormatted idAttribute) [] := by
  unfold onFulfilled at h
  cases h1 : getProp response "status" with
  | error e => rw [h1, bind_error] at h; cases h
  | ok v1 =>
  rw [h1, bind_ok] at h
  cases h1' : v1.toStr with
  | error e => rw [h1', bind_error] at h; cases h
  | ok t1 =>
  rw [h1', bind_ok] at h
  cases h2 : getProp response "statusText" with
  | error e => rw [h2, bind_error] at h; cases h
  | ok v2 =>
  rw [h2, bind_ok] at h
  cases h2' : v2.toStr with
  | error e => rw [h2', bind_error] at h; cases h
  | ok t2 =>
  rw [h2', bind_ok] at h
  cases h3 : getProp response "statusCode" with
  | error e => rw [h3, bind_error] at h; cases h
  | ok v3 =>
  rw [h3, bind_ok] at h
  cases h4 : lessThan v3 200 with
  | error e => rw [h4, bind_error] at h; cases h
  | ok below =>
  rw [h4, bind_ok] at h
  have hthrow : ∀ (x : Except JSError (PromiseState (List JSVal))),
      x = (getProp response "req" >>= fun req => getProp req "getHeader" >>= fun _ =>
        throw .typeError) → x ≠ .ok (.fulfilled seq) := by
    intro x hx
    rw [hx]
    cases h7 : getProp response "req" with
    | error e => rw [bind_error]; exact fun hh => by cases hh
    | ok v7 =>
      rw [bind_ok]
      cases h8 : getProp v7 "getHeader" with
      | error e => rw [bind_error]; exact fun hh => by cases hh
      | ok v8 => rw [bind_ok]; exact fun hh => by cases hh
  cases below with
  | true =>
    exact absurd h (hthrow _ rfl)
  | false =>
    cases h5 : greaterEq v3 300 with
    | error e =>
      simp only [Bool.false_eq_true, if_false] at h
      rw [h5, bind_error] at h
      cases h
    | ok failed =>
      simp only [Bool.false_eq_true, if_false] at h
      rw [h5, bind_ok] at h
      cases failed with
      | true => exact absurd h (hthrow _ rfl)
      | false => exact onFulfilled_body response idAttribute seq h

theorem mem_remove_key (k : String) (ps : List (String × JSVal)) (kv : String × JSVal)
    (h : kv ∈ remove k ps) : kv.1 ≠ k := by
  simp [remove] at h
  exact h.2

/-- The discriminator can be read as a string only from an object. -/
theorem type_str_obj (r : JSVal) (t : String)
    (ht : (getProp r "__metadata" >>= fun m => getProp m "type") = .ok (.str t)) :
    ∃ ps, r = .obj ps ∧ getProp (lookup "__metadata" ps) "type" = .ok (.str t) := by
  cases r with
  | obj ps => exact ⟨ps, rfl, ht⟩
  | arr xs =>
    have h3 : getProp (.arr xs) "__metadata" = .ok .undefined := by
      simp [getProp, arrayIndex]
    rw [h3] at ht
    cases ht
  | _ => cases ht

theorem ne_null_of_isNull (v : JSVal) (h : v.isNull = false) : v ≠ .null := by
  intro e
  rw [e] at h
  cases h

/-- On two strings `==` is the equality of the texts. -/
theorem looseEq_str (a b : String) : looseEq (.str a) (.str b) = .ok (a == b) := rfl

/-! ## The claims on the normaliser -/

/-- C1: whenever `formatData(r, idAttribute)` returns a record (not `null`),
the record has `updated = false` and `dateStr =
BydTimestampToHumanDate(r.CreationDateTime)` if `r.CreationDateTime` equals
`r.LastChangeDateTime`, and `updated = true` and `dateStr =
BydTimestampToHumanDate(r.LastChangeDateTime)` otherwise. The two values are
compared by the operator `==`, which did not throw since a record is returned;
when both are strings, as the timestamps of the source are, they are equal
exactly when they are the same text. -/
theorem formatData_updated_dateStr (r : JSVal) (idAttribute : Option String)
    (creation lastChange : JSVal)
    (hret : formatData r idAttribute ≠ .null)
    (hc : getProp r "CreationDateTime" = .ok creation)
    (hl : getProp r "LastChangeDateTime" = .ok lastChange) :
    (∃ same, looseEq creation lastChange = .ok same) ∧
    (looseEq creation lastChange = .ok true →
      getProp (formatData r idAttribute) "updated" = .ok (.bool false) ∧
      getProp (formatData r idAttribute) "dateStr" =
        .ok (BydTimestampToHumanDate creation)) ∧
    (looseEq creation lastChange = .ok false →
      getProp (formatData r idAttribute) "updated" = .ok (.bool true) ∧
      getProp (formatData r idAttribute) "dateStr" =
        .ok (BydTimestampToHumanDate lastChange)) ∧
    (∀ a b : String, creation = .str a → lastChange = .str b →
      (looseEq creation lastChange = .ok true ↔ a = b)) := by
  rcases formatData_null_or_obj r idAttribute with h | ⟨ps, t, same, qs, hr, hq, ht, _⟩
  · exact absurd h hret
  · subst hr
    rw [getProp_obj] at hc hl
    injection hc with hc
    injection hl with hl
    rw [hc, hl] at hq
    have hrec := formatData_obj_str ps idAttribute t same (by rw [hc, hl]; exact hq) ht
    rw [hc, hl] at hrec
    rw [hrec, getProp_obj, getProp_obj,
      lookup_remove_ne (by decide), lookup_remove_ne (by decide), lookup_assign_self,
      lookup_assign_ne (by decide), lookup_assign_ne (by decide), lookup_assign_self]
    refine ⟨⟨same, hq⟩, ?_, ?_, ?_⟩
    · intro hq'
      rw [hq] at hq'
      injection hq' with hs
      subst hs
      exact ⟨rfl, rfl⟩
    · intro hq'
      rw [hq] at hq'
      injection hq' with hs
      subst hs
      exact ⟨rfl, rfl⟩
    · intro a b ha hb
      subst ha hb
      rw [looseEq_str]
      constructor
      · intro hh
        injection hh with hh
        simpa using hh
      · intro hh
        rw [hh]
        simp

/-- Witness of C1 at a changed invoice. -/
theorem formatData_updated_dateStr_witness :
    looseEq (.str "/Date(1)/") (.str "/Date(2)/") = .ok false ∧
    getProp (formatData changedInvoice (some "ObjectID")) "updated" = .ok (.bool true) ∧
    getProp (formatData changedInvoice (some "ObjectID")) "dateStr" =
      .ok (BydTimestampToHumanDate (.str "/Date(2)/")) :=
  have hq : looseEq (.str "/Date(1)/") (.str "/Date(2)/") = .ok false := rfl
  ⟨hq, (formatData_updated_dateStr changedInvoice (some "ObjectID") (.str "/Date(1)/")
    (.str "/Date(2)/") (ne_null_of_isNull _ (by decide)) rfl rfl).2.2.1 hq⟩

/-- The record `formatData` builds, field by field. -/
theorem formatData_fields (ps : List (String × JSVal)) (idAttribute : Option String)
    (t : String) (same : Bool)
    (hq : looseEq (lookup "CreationDateTime" ps) (lookup "LastChangeDateTime" ps) = .ok same)
    (h : getProp (lookup "__metadata" ps) "type" = .ok (.str t)) :
    ∃ qs, formatData (.obj ps) idAttribute = .obj qs ∧
      lookup "genericId" qs = lookup (propKey idAttribute) ps ∧
      lookup "genericType" qs =
        (((splitChars '.' t.data).map fun seg => JSVal.str (String.mk seg)).getD 1
          .undefined) ∧
      lookup "dateStr" qs = BydTimestampToHumanDate
        (if same then lookup "CreationDateTime" ps else lookup "LastChangeDateTime" ps) ∧
      (∀ kv ∈ qs, kv.1 ≠ "__metadata") := by
  refine ⟨_, formatData_obj_str ps idAttribute t same hq h, ?_, ?_, ?_, ?_⟩
  · rw [lookup_remove_ne (by decide), lookup_assign_ne (by decide),
      lookup_assign_ne (by decide), lookup_assign_ne (by decide), lookup_assign_self]
  · rw [lookup_remove_ne (by decide), lookup_assign_ne (by decide), lookup_assign_self]
  · rw [lookup_remove_ne (by decide), lookup_assign_self]
  · intro kv hkv
    exact mem_remove_key _ _ kv hkv

/-- C5, as the code has it: for a raw record whose discriminator
`__metadata.type` is a string with at least one ".", `formatData` returns a
record whenever the operator `==` compares the two timestamps without
throwing: its `genericType` is the second dot-separated segment of the
discriminator, its `genericId` the value of the raw record at `idAttribute`,
and it has no `__metadata` field. When the comparison throws, `formatData`
returns `null`. Two strings are always compared without throwing. -/
theorem formatData_genericType (r : JSVal) (idAttribute : Option String) (t : String)
    (creation lastChange : JSVal)
    (ht : (getProp r "__metadata" >>= fun m => getProp m "type") = .ok (.str t))
    (hdot : '.' ∈ t.data)
    (hc : getProp r "CreationDateTime" = .ok creation)
    (hl : getProp r "LastChangeDateTime" = .ok lastChange) :
    (∀ same, looseEq creation lastChange = .ok same →
      ∃ qs, formatData r idAttribute = .obj qs ∧
        lookup "genericType" qs = .str (String.mk (secondSegment t.data)) ∧
        getProp r (propKey idAttribute) = .ok (lookup "genericId" qs) ∧
        (∀ kv ∈ qs, kv.1 ≠ "__metadata")) ∧
    (∀ e, looseEq creation lastChange = .error e → formatData r idAttribute = .null) ∧
    (∀ a b : String, creation = .str a → lastChange = .str b →
      looseEq creation lastChange = .ok (a == b)) := by
  obtain ⟨ps, hr, hty⟩ := type_str_obj r t ht
  subst hr
  rw [getProp_obj] at hc hl
  injection hc with hc
  injection hl with hl
  subst hc hl
  refine ⟨?_, ?_, ?_⟩
  · intro same hq
    obtain ⟨qs, hrec, hid, hgt, _, hmd⟩ := formatData_fields ps idAttribute t same hq hty
    refine ⟨qs, hrec, ?_, ?_, hmd⟩
    · rw [hgt, List.getD_eq_getElem?_getD, List.getElem?_map, splitChars_second t.data hdot]
      rfl
    · rw [getProp_obj, hid]
  · intro e hq
    exact formatData_obj_throw ps idAttribute e hq
  · intro a b ha hb
    rw [ha, hb]
    exact looseEq_str a b

/-- Witness of C5 as amended: the discriminator "ByDOData.Invoice" gives
"Invoice". -/
theorem formatData_genericType_witness :
    '.' ∈ "ByDOData.Invoice".data ∧
    looseEq (.str "/Date(1)/") (.str "/Date(2)/") = .ok false ∧
    ∃ qs, formatData changedInvoice (some "ObjectID") = .obj qs ∧
      lookup "genericType" qs = .str "Invoice" ∧
      getProp changedInvoice "ObjectID" = .ok (lookup "genericId" qs) ∧
      (∀ kv ∈ qs, kv.1 ≠ "__metadata") :=
  ⟨by decide, rfl, (formatData_genericType changedInvoice (some "ObjectID") "ByDOData.Invoice"
    (.str "/Date(1)/") (.str "/Date(2)/") rfl (by decide) rfl rfl).1 false rfl⟩

/-- C5 fails as stated: the discriminator "ByDOData.Invoice" has a ".", but
the creation timestamp is an object with an own property `toString`, the
comparison with the string throws a TypeError, and `formatData` returns
`null`, not a record. -/
theorem formatData_genericType_counterexample :
    (getProp unprintableInvoice "__metadata" >>= fun m => getProp m "type") =
      .ok (.str "ByDOData.Invoice") ∧
    '.' ∈ "ByDOData.Invoice".data ∧
    looseEq (.obj [("toString", .num 0)]) (.str "/Date(2)/") = .error .typeError ∧
    formatData unprintableInvoice (some "ObjectID") = .null :=
  ⟨rfl, by decide, rfl, rfl⟩

/-- C4, as the code has it: for a raw record whose discriminator is a string
without any ".", `formatData` returns a record, not `null`, whenever the
operator `==` compares the two timestamps without throwing; its `genericType`
is `undefined`, and the loop of `getBydObject` keeps the record. When the
comparison throws, `formatData` returns `null`. Two strings are always
compared without throwing. -/
theorem formatData_undotted_type (r : JSVal) (idAttribute : Option String) (t : String)
    (creation lastChange : JSVal)
    (ht : (getProp r "__metadata" >>= fun m => getProp m "type") = .ok (.str t))
    (hdot : '.' ∉ t.data)
    (hc : getProp r "CreationDateTime" = .ok creation)
    (hl : getProp r "LastChangeDateTime" = .ok lastChange) :
    (∀ same, looseEq creation lastChange = .ok same →
      ∃ qs, formatData r idAttribute = .obj qs ∧
        lookup "genericType" qs = .undefined ∧
        ∀ formatedData,
          pushFormatted idAttribute formatedData r = formatedData ++ [.obj qs]) ∧
    (∀ e, looseEq creation lastChange = .error e → formatData r idAttribute = .null) ∧
    (∀ a b : String, creation = .str a → lastChange = .str b →
      looseEq creation lastChange = .ok (a == b)) := by
  obtain ⟨ps, hr, hty⟩ := type_str_obj r t ht
  subst hr
  rw [getProp_obj] at hc hl
  injection hc with hc
  injection hl with hl
  subst hc hl
  refine ⟨?_, ?_, ?_⟩
  · intro same hq
    obtain ⟨qs, hrec, _, hgt, _, _⟩ := formatData_fields ps idAttribute t same hq hty
    refine ⟨qs, hrec, ?_, ?_⟩
    · rw [hgt, splitChars_not_mem '.' t.data hdot]
      rfl
    · intro acc
      simp [pushFormatted, hrec, truthy]
  · intro e hq
    exact formatData_obj_throw ps idAttribute e hq
  · intro a b ha hb
    rw [ha, hb]
    exact looseEq_str a b

/-- Witness of C4 as amended, at an invoice with the discriminator "Invoice". -/
theorem formatData_undotted_type_witness :
    '.' ∉ "Invoice".data ∧
    looseEq (.str "/Date(1)/") (.str "/Date(1)/") = .ok true ∧
    (∃ qs, formatData undottedInvoice (some "ObjectID") = .obj qs ∧
      lookup "genericType" qs = .undefined ∧
      ∀ formatedData,
        pushFormatted (some "ObjectID") formatedData undottedInvoice =
          formatedData ++ [.obj qs]) ∧
    looseEq (.obj [("toString", .num 0)]) (.str "/Date(2)/") = .error .typeError ∧
    formatData unprintableUndotted (some "ObjectID") = .null :=
  ⟨by decide, rfl,
    (formatData_undotted_type undottedInvoice (some "ObjectID") "Invoice"
      (.str "/Date(1)/") (.str "/Date(1)/") rfl (by decide) rfl rfl).1 true rfl,
    rfl,
    (formatData_undotted_type unprintableUndotted (some "ObjectID") "Invoice"
      (.obj [("toString", .num 0)]) (.str "/Date(2)/") rfl (by decide) rfl rfl).2.1
        .typeError rfl⟩

/-- C4 fails as stated: the discriminator "Invoice" has no ".", and
`formatData` returns the record, with `genericType` undefined, instead of
`null`. -/
theorem formatData_undotted_type_counterexample :
    (getProp undottedInvoice "__metadata" >>= fun m => getProp m "type") =
      .ok (.str "Invoice") ∧
    '.' ∉ "Invoice".data ∧
    formatData undottedInvoice (some "ObjectID") =
      .obj [("ObjectID", .str "X2"), ("CreationDateTime", .str "/Date(1)/"),
        ("LastChangeDateTime", .str "/Date(1)/"), ("genericId", .str "X2"),
        ("updated", .bool false), ("genericType", .undefined),
        ("dateStr", .date (some 1))] ∧
    formatData undottedInvoice (some "ObjectID") ≠ .null :=
  ⟨rfl, by decide, by rfl, ne_null_of_isNull _ (by decide)⟩

/-- C7: `formatData` does not throw, it returns `null` or a record for every
input; and when `getBydObject` resolves, the sequence is that of the results of
`formatData` over the raw records that are not `null`, in their order, so its
length is the number of raw records minus the number of those `formatData`
answers with `null`. -/
theorem getBydObject_resolves_formatted (elem : JSVal)
    (axiosRequest : RequestOptions → PromiseState JSVal) (env : Env) (lastRun : JSVal)
    (endpoint idAttribute : Option String) (seq : List JSVal)
    (h : (getBydObject axiosRequest env lastRun endpoint idAttribute).state = .fulfilled seq) :
    (formatData elem idAttribute = .null ∨ ∃ qs, formatData elem idAttribute = .obj qs) ∧
    ∃ options response raw,
      requestOptions env lastRun endpoint idAttribute = .ok options ∧
      axiosRequest options = .fulfilled response ∧
      (getProp response "data" >>= fun data => getProp data "d" >>= fun d =>
        getProp d "results") = .ok (.arr raw) ∧
      seq = (raw.map fun e => formatData e idAttribute).filter (fun v => !v.isNull) ∧
      seq.length = raw.length - raw.countP fun e => (formatData e idAttribute).isNull := by
  constructor
  · rcases formatData_null_or_obj elem idAttribute with h | ⟨_, _, _, qs, _, _, _, h⟩
    · exact Or.inl h
    · exact Or.inr ⟨qs, h⟩
  · simp only [getBydObject] at h
    cases hopt : requestOptions env lastRun endpoint idAttribute with
    | error e => simp [hopt] at h
    | ok options =>
    cases hax : axiosRequest options with
    | pending => simp [hopt, hax] at h
    | rejected e => simp [hopt, hax] at h
    | fulfilled response =>
      cases hon : onFulfilled response idAttribute with
      | error e => simp [hopt, hax, hon] at h
      | ok state =>
        simp only [hopt, hax, hon] at h
        subst h
        obtain ⟨raw, hraw, hseq⟩ := onFulfilled_fulfilled response idAttribute seq hon
        have hfilter : seq =
            (raw.map fun e => formatData e idAttribute).filter (fun v => !v.isNull) := by
          rw [hseq, foldl_pushFormatted, List.nil_append]
        refine ⟨options, response, raw, rfl, hax, hraw, hfilter, ?_⟩
        rw [hfilter, List.filter_map, List.length_map]
        have hlen := List.length_eq_countP_add_countP
          (fun e => (formatData e idAttribute).isNull) raw
        have hc : List.countP (fun a => decide ¬(formatData a idAttribute).isNull = true) raw
            = (List.filter ((fun v => !v.isNull) ∘ fun e => formatData e idAttribute) raw).length := by
          rw [List.countP_eq_length_filter]
          congr 1
          apply List.filter_congr
          intro x _
          simp
        omega

/-- Witness of C7: a response with three raw records, the second of them
`null`. -/
theorem getBydObject_resolves_formatted_witness :
    (getBydObject sampleAxios sampleEnv (.str "2020-09-13T09:31:06.393Z")
      (some "customers") (some "ObjectID")).state =
        .fulfilled [formatData changedInvoice (some "ObjectID"),
          formatData undottedInvoice (some "ObjectID")] ∧
    ((formatData .null (some "ObjectID") = .null ∨
        ∃ qs, formatData .null (some "ObjectID") = .obj qs) ∧
      ∃ options response raw,
        requestOptions sampleEnv (.str "2020-09-13T09:31:06.393Z")
          (some "customers") (some "ObjectID") = .ok options ∧
        sampleAxios options = .fulfilled response ∧
        (getProp response "data" >>= fun data => getProp data "d" >>= fun d =>
          getProp d "results") = .ok (.arr raw) ∧
        [formatData changedInvoice (some "ObjectID"),
            formatData undottedInvoice (some "ObjectID")] =
          (raw.map fun e => formatData e (some "ObjectID")).filter (fun v => !v.isNull) ∧
        [formatData changedInvoice (some "ObjectID"),
            formatData undottedInvoice (some "ObjectID")].length =
          raw.length - raw.countP fun e => (formatData e (some "ObjectID")).isNull) :=
  ⟨rfl, getBydObject_resolves_formatted .null sampleAxios sampleEnv
    (.str "2020-09-13T09:31:06.393Z") (some "customers") (some "ObjectID") _ rfl⟩

/-! ## The claims on the fetch and on the run -/

/-- On a response object of the client the status check of the callback does
not fire, whatever the status: `response.statusCode` is `undefined`, and both
comparisons with a number are false. What remains is the unwrapping of the
envelope. -/
theorem onFulfilled_toObject (r : HttpResponse) (idAttribute : Option String) :
    onFulfilled r.toObject idAttribute =
      (getProp r.data "d" >>= fun d => getProp d "results" >>= fun results =>
        match results with
        | .arr elems =>
          (pure (.fulfilled (elems.foldl (pushFormatted idAttribute) [])) :
            Except JSError (PromiseState (List JSVal)))
        | _ => throw .typeError) := rfl

theorem getBydObject_state (adapter : RequestOptions → PromiseState HttpResponse)
    (env : Env) (lastRun : JSVal) (endpoint idAttribute : Option String)
    (options : RequestOptions) (r : HttpResponse)
    (hopt : requestOptions env lastRun endpoint idAttribute = .ok options)
    (hans : adapter options = .fulfilled r) :
    (getBydObject (axiosClient adapter) env lastRun endpoint idAttribute).state =
      if r.status = 0 ∨ (200 ≤ r.status ∧ r.status < 300) then
        match onFulfilled r.toObject idAttribute with
        | .ok state => state
        | .error err => .rejected (.error "" err)
      else .rejected (.error ""
        (.external ("Request failed with status code " ++ toString r.status))) := by
  simp only [getBydObject, hopt, axiosClient, hans]
  by_cases hcond : r.status = 0 ∨ (200 ≤ r.status ∧ r.status < 300)
  · simp only [if_pos hcond]
  · simp only [if_neg hcond]

/-- C8, as the code has it: in `getBydObject` over the HTTP client, a response
whose status code is not 0 and lies outside [200, 300) makes the promise
reject; a response whose status lies in [200, 300) resolves with the
normalised records when its body holds an array at `d.results`, and makes the
promise reject when it does not. -/
theorem getBydObject_status (adapter : RequestOptions → PromiseState HttpResponse)
    (env : Env) (lastRun : JSVal) (endpoint idAttribute : Option String)
    (options : RequestOptions) (r : HttpResponse)
    (hopt : requestOptions env lastRun endpoint idAttribute = .ok options)
    (hans : adapter options = .fulfilled r) :
    (r.status ≠ 0 → (r.status < 200 ∨ 300 ≤ r.status) →
      ∃ e, (getBydObject (axiosClient adapter) env lastRun endpoint idAttribute).state =
        .rejected e) ∧
    (200 ≤ r.status → r.status < 300 →
      ∀ raw, (getProp r.data "d" >>= fun d => getProp d "results") = .ok (.arr raw) →
        (getBydObject (axiosClient adapter) env lastRun endpoint idAttribute).state =
          .fulfilled ((raw.map fun e => formatData e idAttribute).filter
            fun v => !v.isNull)) ∧
    (200 ≤ r.status → r.status < 300 →
      (∀ raw, (getProp r.data "d" >>= fun d => getProp d "results") ≠ .ok (.arr raw)) →
      ∃ e, (getBydObject (axiosClient adapter) env lastRun endpoint idAttribute).state =
        .rejected e) := by
  have hstate := getBydObject_state adapter env lastRun endpoint idAttribute options r hopt hans
  refine ⟨?_, ?_, ?_⟩
  · intro h0 hout
    have hcond : ¬ (r.status = 0 ∨ (200 ≤ r.status ∧ r.status < 300)) := by omega
    rw [hstate, if_neg hcond]
    exact ⟨_, rfl⟩
  · intro hlo hhi raw hraw
    have hcond : r.status = 0 ∨ (200 ≤ r.status ∧ r.status < 300) := Or.inr ⟨hlo, hhi⟩
    rw [hstate, if_pos hcond, onFulfilled_toObject]
    cases hd : getProp r.data "d" with
    | error e => rw [hd, bind_error] at hraw; cases hraw
    | ok d =>
      rw [hd, bind_ok] at hraw
      rw [bind_ok, hraw, bind_ok]
      show PromiseState.fulfilled (List.foldl (pushFormatted idAttribute) [] raw) = _
      rw [foldl_pushFormatted, List.nil_append]
  · intro hlo hhi hnone
    have hcond : r.status = 0 ∨ (200 ≤ r.status ∧ r.status < 300) := Or.inr ⟨hlo, hhi⟩
    rw [hstate, if_pos hcond, onFulfilled_toObject]
    cases hd : getProp r.data "d" with
    | error e => exact ⟨_, rfl⟩
    | ok d =>
      rw [hd, bind_ok] at hnone
      rw [bind_ok]
      cases hres : getProp d "results" with
      | error e => exact ⟨_, rfl⟩
      | ok results =>
        rw [bind_ok]
        cases results with
        | arr raw => exact absurd hres (hnone raw)
        | _ => exact ⟨_, rfl⟩

/-- Witness of C8 as amended: an answer with the status 404 is rejected, one
with the status 200 and a record resolves with the normalised record. -/
theorem getBydObject_status_witness :
    (∃ e, (getBydObject (axiosClient fun _ => .fulfilled notFoundAnswer) sampleEnv
      (.str "2020-09-13T09:31:06.393Z") (some "invoices") (some "ObjectID")).state =
        .rejected e) ∧
    (getBydObject (axiosClient fun _ => .fulfilled okAnswer) sampleEnv
      (.str "2020-09-13T09:31:06.393Z") (some "invoices") (some "ObjectID")).state =
        .fulfilled (([changedInvoice].map fun e => formatData e (some "ObjectID")).filter
          fun v => !v.isNull) :=
  ⟨(getBydObject_status (fun _ => .fulfilled notFoundAnswer) sampleEnv
      (.str "2020-09-13T09:31:06.393Z") (some "invoices") (some "ObjectID") _ notFoundAnswer
      rfl rfl).1 (by decide) (by decide),
    (getBydObject_status (fun _ => .fulfilled okAnswer) sampleEnv
      (.str "2020-09-13T09:31:06.393Z") (some "invoices") (some "ObjectID") _ okAnswer
      rfl rfl).2.1 (by decide) (by decide) [changedInvoice] rfl⟩

/-- C8 fails as stated: an answer with the status 200 and the body `{}` is
handed to the success callback, which throws on `response.data.d.results`; the
promise rejects instead of resolving. -/
theorem getBydObject_status_counterexample :
    200 ≤ emptyAnswer.status ∧ emptyAnswer.status < 300 ∧
    axiosClient (fun _ => .fulfilled emptyAnswer)
      { method := "GET", baseURL := none, url := none, headers := [], params := [] } =
        .fulfilled emptyAnswer.toObject ∧
    (getBydObject (axiosClient fun _ => .fulfilled emptyAnswer) sampleEnv
      (.str "2020-09-13T09:31:06.393Z") (some "invoices") (some "ObjectID")).state =
        .rejected (.error "" .typeError) :=
  ⟨by decide, by decide, rfl, rfl⟩

/-- C6, as the code has it: for every watermark string `w` the `$filter` value
that `getBydObject` builds is exactly `LastChangeDateTime ge datetimeoffset`,
then `%27`, `w`, `%27`: the watermark stands between two percent-encoded
quotes, three characters each. -/
theorem getBydObject_filter (axiosRequest : RequestOptions → PromiseState JSVal) (env : Env)
    (w : String) (endpoint idAttribute : Option String) :
    ∃ options,
      (getBydObject axiosRequest env (.str w) endpoint idAttribute).calls = [options] ∧
      options.params.lookup "$filter" =
        some ("LastChangeDateTime ge datetimeoffset%27" ++ w ++ "%27") :=
  ⟨_, rfl, rfl⟩

/-- C6 fails as stated: for the watermark "2020-09-13T09:31:06.393Z" the
`$filter` value is not the text with the watermark between single-quote
characters, and does not contain that text. -/
theorem getBydObject_filter_counterexample :
    filterParam (.str "2020-09-13T09:31:06.393Z") =
      .ok "LastChangeDateTime ge datetimeoffset%272020-09-13T09:31:06.393Z%27" ∧
    filterParam (.str "2020-09-13T09:31:06.393Z") ≠
      .ok ("LastChangeDateTime ge datetimeoffset'" ++ "2020-09-13T09:31:06.393Z" ++ "'") ∧
    ¬ ("LastChangeDateTime ge datetimeoffset'2020-09-13T09:31:06.393Z'".data <:+:
      "LastChangeDateTime ge datetimeoffset%272020-09-13T09:31:06.393Z%27".data) := by
  refine ⟨rfl, ?_, ?_⟩
  · intro h
    have h' : (Except.ok "LastChangeDateTime ge datetimeoffset%272020-09-13T09:31:06.393Z%27" :
        Except JSError String) =
        .ok ("LastChangeDateTime ge datetimeoffset'" ++ "2020-09-13T09:31:06.393Z" ++ "'") := h
    injection h' with h'
    exact absurd h' (by decide)
  · decide

/-- C10: outside the local mode, when the read of the store fails or the
answer of the store holds no `Item`, the handler hands no request to
`axios.request` and still returns its response object. -/
theorem lambdaHandler_no_watermark (env : Env) (getItem : PromiseState JSVal)
    (axiosRequest : RequestOptions → PromiseState JSVal)
    (hlocal : isLocal env = false)
    (hmiss : (∃ e, getItem = .rejected e) ∨
      ∃ data item, getItem = .fulfilled data ∧ getProp data "Item" = .ok item ∧
        item.isNullish = true) :
    (lambdaHandler env getItem axiosRequest).requests = [] ∧
    (lambdaHandler env getItem axiosRequest).result = .fulfilled startedResponse := by
  rcases hmiss with ⟨e, he⟩ | ⟨data, item, hd, hi, hn⟩
  · subst he
    simp [lambdaHandler, getConfig, hlocal]
  · subst hd
    have hthrow : readLastRun item = .error .typeError := by
      cases item <;> first | rfl | cases hn
    simp [lambdaHandler, getConfig, hlocal, hi, hthrow]

/-- Witness of C10: the store answers with an object without `Item`. -/
theorem lambdaHandler_no_watermark_witness :
    isLocal sampleEnv = false ∧
    ((lambdaHandler sampleEnv (.fulfilled (.obj [])) sampleAxios).requests = [] ∧
      (lambdaHandler sampleEnv (.fulfilled (.obj [])) sampleAxios).result =
        .fulfilled startedResponse) :=
  ⟨rfl, lambdaHandler_no_watermark sampleEnv (.fulfilled (.obj [])) sampleAxios rfl
    (Or.inr ⟨.obj [], .undefined, rfl, rfl, rfl⟩)⟩

/-- C9 fails as stated: the fetch of the invoices is rejected and that of the
customers resolves with two records, yet nothing is reported after
`Promise.all` and the handler never returns. -/
theorem lambdaHandler_isolation_counterexample :
    (getBydObject sampleAxios sampleEnv (.str "2020-09-13T09:31:06.393Z")
      sampleEnv.BYD_INVOICES sampleEnv.BYD_INVOICES_ID).state =
        .rejected (.error "" (.external "socket hang up")) ∧
    (getBydObject sampleAxios sampleEnv (.str "2020-09-13T09:31:06.393Z")
      sampleEnv.BYD_CUSTOMERS sampleEnv.BYD_CUSTOMERS_ID).state =
        .fulfilled [formatData changedInvoice (some "ObjectID"),
          formatData undottedInvoice (some "ObjectID")] ∧
    (lambdaHandler sampleEnv (.fulfilled storedConfig) sampleAxios).requests.length = 2 ∧
    (lambdaHandler sampleEnv (.fulfilled storedConfig) sampleAxios).reported = none ∧
    (lambdaHandler sampleEnv (.fulfilled storedConfig) sampleAxios).result = .pending :=
  ⟨rfl, rfl, rfl, rfl, rfl⟩

/-- C9, as the code has it: once the watermark is loaded, the values after
`Promise.all` are reported only when both fetches resolve. If both resolve,
the two normalised sequences are reported, invoices first, and the handler
returns its response; if one of the two does not resolve, nothing is
reported, for the other entity either. -/
theorem lambdaHandler_reports_both (env : Env) (getItem : PromiseState JSVal)
    (axiosRequest : RequestOptions → PromiseState JSVal) (data lastRun : JSVal)
    (hcfg : getConfig env getItem = .fulfilled data)
    (hlr : readLastRun data = .ok lastRun) :
    (∀ invoices customers,
      (getBydObject axiosRequest env lastRun env.BYD_INVOICES env.BYD_INVOICES_ID).state =
        .fulfilled invoices →
      (getBydObject axiosRequest env lastRun env.BYD_CUSTOMERS env.BYD_CUSTOMERS_ID).state =
        .fulfilled customers →
      (lambdaHandler env getItem axiosRequest).reported = some (invoices, customers) ∧
      (lambdaHandler env getItem axiosRequest).result = .fulfilled startedResponse) ∧
    (((∀ invoices,
        (getBydObject axiosRequest env lastRun env.BYD_INVOICES env.BYD_INVOICES_ID).state ≠
          .fulfilled invoices) ∨
      (∀ customers,
        (getBydObject axiosRequest env lastRun env.BYD_CUSTOMERS env.BYD_CUSTOMERS_ID).state ≠
          .fulfilled customers)) →
      (lambdaHandler env getItem axiosRequest).reported = none) := by
  constructor
  · intro invoices customers hi hc
    simp [lambdaHandler, hcfg, hlr, getSalesInvoices, getCustomers, resolveOnly, hi, hc,
      promiseAll]
  · intro h
    simp only [lambdaHandler, hcfg, hlr, getSalesInvoices, getCustomers, resolveOnly]
    rcases h with h | h
    · cases hi : (getBydObject axiosRequest env lastRun env.BYD_INVOICES
          env.BYD_INVOICES_ID).state with
      | fulfilled v => exact absurd hi (h v)
      | pending =>
        cases hc : (getBydObject axiosRequest env lastRun env.BYD_CUSTOMERS
          env.BYD_CUSTOMERS_ID).state <;> simp [promiseAll]
      | rejected e =>
        cases hc : (getBydObject axiosRequest env lastRun env.BYD_CUSTOMERS
          env.BYD_CUSTOMERS_ID).state <;> simp [promiseAll]
    · cases hc : (getBydObject axiosRequest env lastRun env.BYD_CUSTOMERS
          env.BYD_CUSTOMERS_ID).state with
      | fulfilled v => exact absurd hc (h v)
      | pending =>
        cases hi : (getBydObject axiosRequest env lastRun env.BYD_INVOICES
          env.BYD_INVOICES_ID).state <;> simp [promiseAll]
      | rejected e =>
        cases hi : (getBydObject axiosRequest env lastRun env.BYD_INVOICES
          env.BYD_INVOICES_ID).state <;> simp [promiseAll]

/-- Witness of C9 as amended: a source that answers both requests. -/
theorem lambdaHandler_reports_both_witness :
    getConfig sampleEnv (.fulfilled storedConfig) = .fulfilled localItem ∧
    readLastRun localItem = .ok (.str "2020-09-13T09:31:06.393Z") ∧
    (lambdaHandler sampleEnv (.fulfilled storedConfig) (fun _ => .fulfilled okResponse)).reported =
      some ([formatData changedInvoice (some "ObjectID"),
          formatData undottedInvoice (some "ObjectID")],
        [formatData changedInvoice (some "ObjectID"),
          formatData undottedInvoice (some "ObjectID")]) ∧
    (lambdaHandler sampleEnv (.fulfilled storedConfig) (fun _ => .fulfilled okResponse)).result =
      .fulfilled startedResponse :=
  ⟨rfl, rfl, (lambdaHandler_reports_both sampleEnv (.fulfilled storedConfig)
    (fun _ => .fulfilled okResponse) localItem (.str "2020-09-13T09:31:06.393Z") rfl rfl).1
      _ _ rfl rfl⟩

/-! ## The claims on the decoding of timestamps -/

theorem lastIndexOfAux_not_mem (c : Char) (xs : List Char) (i : Nat) (acc : Int)
    (h : c ∉ xs) : lastIndexOfAux c xs i acc = acc := by
  induction xs generalizing i acc with
  | nil => rfl
  | cons x xs ih =>
    have hx : ¬ x = c := fun e => h (by simp [e])
    have hxs : c ∉ xs := fun e => h (by simp [e])
    simp [lastIndexOfAux, hx, ih _ _ hxs]

/-- The scan answers with the accumulator when the character does not occur,
and with an index at which it stands when it does. -/
theorem lastIndexOfAux_spec (c : Char) (xs : List Char) : ∀ (i : Nat) (acc : Int),
    (c ∉ xs ∧ lastIndexOfAux c xs i acc = acc) ∨
    ∃ k : Nat, lastIndexOfAux c xs i acc = (k : Int) ∧ i ≤ k ∧ k < i + xs.length ∧
      xs[k - i]? = some c := by
  induction xs with
  | nil =>
    intro i acc
    exact Or.inl ⟨by simp, rfl⟩
  | cons x xs ih =>
    intro i acc
    simp only [lastIndexOfAux]
    rcases ih (i + 1) (if x = c then (i : Int) else acc) with ⟨hn, he⟩ | ⟨k, he, h1, h2, h3⟩
    · by_cases hx : x = c
      · right
        refine ⟨i, ?_, Nat.le_refl _, by simp, ?_⟩
        · rw [he, if_pos hx]
        · simp [hx]
      · left
        refine ⟨?_, ?_⟩
        · intro hm
          rcases List.mem_cons.1 hm with e | e
          · exact hx e.symm
          · exact hn e
        · rw [he, if_neg hx]
    · right
      refine ⟨k, he, by omega, by simp only [List.length_cons]; omega, ?_⟩
      have hk : k - i = (k - (i + 1)) + 1 := by omega
      rw [hk, List.getElem?_cons_succ]
      exact h3

theorem lastIndexOf_spec (c : Char) (cs : List Char) :
    (c ∉ cs ∧ lastIndexOf cs c = -1) ∨
    ∃ k : Nat, lastIndexOf cs c = (k : Int) ∧ k < cs.length ∧ cs[k]? = some c := by
  rcases lastIndexOfAux_spec c cs 0 (-1) with h | ⟨k, he, _, h2, h3⟩
  · exact Or.inl h
  · exact Or.inr ⟨k, he, by omega, by simpa using h3⟩

theorem BydTimestampToHumanDate_str (s : String) :
    BydTimestampToHumanDate (.str s) =
      .date (timeClip (stringToNumber
        (substring s.data (lastIndexOf s.data '(' + 1) (lastIndexOf s.data ')')))) := rfl

/-! ### A text with an opening parenthesis is no numeric literal -/

theorem mem_dropWhile_of_false (p : Char → Bool) (c : Char) (hp : p c = false)
    (l : List Char) (h : c ∈ l) : c ∈ l.dropWhile p := by
  induction l with
  | nil => exact h
  | cons x xs ih =>
    by_cases hx : p x = true
    · rw [List.dropWhile_cons_of_pos hx]
      rcases List.mem_cons.1 h with e | e
      · rw [e, hx] at hp
        cases hp
      · exact ih e
    · rw [List.dropWhile_cons_of_neg hx]
      exact h

theorem mem_trimWhiteSpace (c : Char) (hp : isStrWhiteSpace c = false) (l : List Char)
    (h : c ∈ l) : c ∈ trimWhiteSpace l := by
  unfold trimWhiteSpace
  rw [List.mem_reverse]
  apply mem_dropWhile_of_false _ _ hp
  rw [List.mem_reverse]
  exact mem_dropWhile_of_false _ _ hp _ h

theorem isDecDigits_paren (l : List Char) (h : '(' ∈ l) : isDecDigits l = false := by
  have hall : l.all isDecDigit = false := by
    rw [List.all_eq_false]
    exact ⟨'(', h, by decide⟩
  simp [isDecDigits, hall]

theorem parseExponent_paren (l : List Char) (h : '(' ∈ l) : parseExponent l = none := by
  cases l with
  | nil => simp at h
  | cons c rest =>
    by_cases he : c = 'e' ∨ c = 'E'
    · have hrest : '(' ∈ rest := by
        rcases List.mem_cons.1 h with e | e
        · rcases he with he | he <;> rw [he] at e <;> exact absurd e (by decide)
        · exact e
      simp only [parseExponent, he, if_true]
      split
      · next ds =>
        have hds : '(' ∈ ds := by
          rcases List.mem_cons.1 hrest with e | e
          · exact absurd e (by decide)
          · exact e
        simp [isDecDigits_paren ds hds]
      · next ds =>
        have hds : '(' ∈ ds := by
          rcases List.mem_cons.1 hrest with e | e
          · exact absurd e (by decide)
          · exact e
        simp [isDecDigits_paren ds hds]
      · simp [isDecDigits_paren rest hrest]
    · simp [parseExponent, he]

theorem parseUnsignedDecimal_paren (l : List Char) (h : '(' ∈ l) :
    parseUnsignedDecimal l = none := by
  have hd : '(' ∈ l.dropWhile isDecDigit := mem_dropWhile_of_false _ _ (by decide) l h
  unfold parseUnsignedDecimal
  split
  · next r heq =>
    rw [heq] at hd
    have hr : '(' ∈ r := by
      rcases List.mem_cons.1 hd with e | e
      · exact absurd e (by decide)
      · exact e
    have hr' : '(' ∈ r.dropWhile isDecDigit := mem_dropWhile_of_false _ _ (by decide) r hr
    simp [parseExponent_paren _ hr']
  · simp [parseExponent_paren _ hd]

theorem parseStrDecimal_paren (l : List Char) (h : '(' ∈ l) : parseStrDecimal l = none := by
  have hsb : '(' ∈ (match l with
      | '+' :: r => (false, r)
      | '-' :: r => (true, r)
      | r => (false, r)).2 := by
    split
    · next r =>
      rcases List.mem_cons.1 h with e | e
      · exact absurd e (by decide)
      · exact e
    · next r =>
      rcases List.mem_cons.1 h with e | e
      · exact absurd e (by decide)
      · exact e
    · exact h
  have hinf : ¬ ((match l with
      | '+' :: r => (false, r)
      | '-' :: r => (true, r)
      | r => (false, r)).2 = "Infinity".data) := by
    intro e
    rw [e] at hsb
    exact absurd hsb (by decide)
  simp only [parseStrDecimal, hinf, if_false, parseUnsignedDecimal_paren _ hsb, Option.map_none']

theorem radixDigit_paren (base : Nat) (hb : base ≤ 16) : radixDigit base '(' = none := by
  have h16 : ¬ (16 < base) := by omega
  simp [radixDigit, h16]

theorem parseRadix_paren (l : List Char) (h : '(' ∈ l) : parseRadix l = none := by
  unfold parseRadix
  split
  · next c ds =>
    have hmem : '(' = c ∨ '(' ∈ ds := by
      rcases List.mem_cons.1 h with e | e
      · exact absurd e (by decide)
      · exact List.mem_cons.1 e
    rcases hmem with e | e
    · subst e
      simp
    · have hall : ∀ base, base ≤ 16 →
          (ds.all fun d => (radixDigit base d).isSome) = false := by
        intro base hb
        rw [List.all_eq_false]
        exact ⟨'(', e, by simp [radixDigit_paren base hb]⟩
      by_cases hx : c = 'x' ∨ c = 'X'
      · simp [hx, hall 16 (by decide)]
      · by_cases ho : c = 'o' ∨ c = 'O'
        · simp [hx, ho, hall 8 (by decide)]
        · by_cases hbin : c = 'b' ∨ c = 'B'
          · simp [hx, ho, hbin, hall 2 (by decide)]
          · simp [hx, ho, hbin]
  · rfl

/-- A text in which "(" occurs converts to `NaN`. -/
theorem stringToNumber_paren (l : List Char) (h : '(' ∈ l) : stringToNumber l = .nan := by
  have ht : '(' ∈ trimWhiteSpace l := mem_trimWhiteSpace _ (by decide) l h
  have hne : (trimWhiteSpace l).isEmpty = false := by
    cases hl : trimWhiteSpace l with
    | nil => rw [hl] at ht; simp at ht
    | cons c cs => rfl
  simp [stringToNumber, hne, parseStrDecimal_paren _ ht, parseRadix_paren _ ht]

/-- When the last ")" stands before the last "(", or there is none, the slice
the decoder takes holds that "(". -/
theorem substring_paren (cs : List Char)
    (h : lastIndexOf cs ')' < lastIndexOf cs '(') :
    '(' ∈ substring cs (lastIndexOf cs '(' + 1) (lastIndexOf cs ')') := by
  rcases lastIndexOf_spec '(' cs with ⟨_, ho⟩ | ⟨k, ho, hk, hget⟩
  · rcases lastIndexOf_spec ')' cs with ⟨_, hc⟩ | ⟨j, hc, _, _⟩
    · rw [ho, hc] at h
      exact absurd h (by decide)
    · rw [ho, hc] at h
      omega
  · have hb : (lastIndexOf cs ')').toNat ≤ k := by
      rw [ho] at h
      omega
    rw [ho]
    have ha : ((k : Int) + 1).toNat = k + 1 := by omega
    have m1 : min (k + 1) cs.length = k + 1 := by omega
    have m2 : min (lastIndexOf cs ')').toNat cs.length = (lastIndexOf cs ')').toNat := by omega
    have m3 : min (k + 1) (lastIndexOf cs ')').toNat = (lastIndexOf cs ')').toNat := by omega
    have m4 : max (k + 1) (lastIndexOf cs ')').toNat = k + 1 := by omega
    simp only [substring, ha, m1, m2, m3, m4]
    apply List.getElem?_mem (n := k - (lastIndexOf cs ')').toNat)
    rw [List.getElem?_take_of_lt (by omega), List.getElem?_drop]
    have e : (lastIndexOf cs ')').toNat + (k - (lastIndexOf cs ')').toNat) = k := by omega
    rw [e]
    exact hget

/-- Without any "(", the slice is the text before the last ")", and empty when
there is no ")" either. -/
theorem substring_no_open (cs : List Char) (h : '(' ∉ cs) :
    substring cs (lastIndexOf cs '(' + 1) (lastIndexOf cs ')') =
      cs.take (lastIndexOf cs ')').toNat := by
  have ho : lastIndexOf cs '(' = -1 := lastIndexOfAux_not_mem _ _ _ _ h
  have hb : (lastIndexOf cs ')').toNat ≤ cs.length := by
    rcases lastIndexOf_spec ')' cs with ⟨_, hc⟩ | ⟨j, hc, hj, _⟩
    · rw [hc]
      exact Nat.zero_le _
    · rw [hc]
      omega
  rw [ho]
  have ha : ((-1 : Int) + 1).toNat = 0 := by decide
  have m1 : min 0 cs.length = 0 := by omega
  have m2 : min (lastIndexOf cs ')').toNat cs.length = (lastIndexOf cs ')').toNat := by omega
  have m3 : min 0 (lastIndexOf cs ')').toNat = 0 := by omega
  have m4 : max 0 (lastIndexOf cs ')').toNat - 0 = (lastIndexOf cs ')').toNat := by omega
  simp only [substring, ha, m1, m2, m3, m4]
  rfl

/-- C3, as the code has it: for every timestamp string, with or without a
matching "(" ... ")" wrapper, `BydTimestampToHumanDate` returns a Date and
never `null`. Without any "(" it is the Date of the text before the last ")"
read as a number (time value 12 for "12)"), which is the time value 0 when
there is no ")" either; when the last ")" stands before the last "(", or
there is no ")" at all, it is the invalid Date. A record whose timestamps `==`
compares without throwing and whose effective timestamp is that string gets
this Date as `dateStr` and is returned by `formatData`. -/
theorem BydTimestampToHumanDate_string (s : String) (r : JSVal)
    (idAttribute : Option String) (type : String) (creation lastChange : JSVal)
    (same : Bool)
    (hty : (getProp r "__metadata" >>= fun m => getProp m "type") = .ok (.str type))
    (hc : getProp r "CreationDateTime" = .ok creation)
    (hl : getProp r "LastChangeDateTime" = .ok lastChange)
    (hq : looseEq creation lastChange = .ok same)
    (heff : (if same then creation else lastChange) = .str s) :
    ∃ t, BydTimestampToHumanDate (.str s) = .date t ∧
      ('(' ∉ s.data →
        t = timeClip (stringToNumber (s.data.take (lastIndexOf s.data ')').toNat))) ∧
      ('(' ∉ s.data → ')' ∉ s.data → t = some 0) ∧
      (lastIndexOf s.data ')' < lastIndexOf s.data '(' → t = none) ∧
      BydTimestampToHumanDate (.str "12)") = .date (some 12) ∧
      ∃ qs, formatData r idAttribute = .obj qs ∧ lookup "dateStr" qs = .date t := by
  obtain ⟨ps, hr, hty'⟩ := type_str_obj r type hty
  subst hr
  rw [getProp_obj] at hc hl
  injection hc with hc
  injection hl with hl
  subst hc hl
  obtain ⟨qs, hrec, _, _, hds, _⟩ := formatData_fields ps idAttribute type same hq hty'
  rw [heff] at hds
  refine ⟨_, BydTimestampToHumanDate_str s, ?_, ?_, ?_, rfl, qs, hrec, ?_⟩
  · intro ho
    rw [substring_no_open s.data ho]
  · intro ho hcl
    have hi : lastIndexOf s.data ')' = -1 := lastIndexOfAux_not_mem _ _ _ _ hcl
    rw [substring_no_open s.data ho, hi]
    rfl
  · intro hlt
    rw [stringToNumber_paren _ (substring_paren s.data hlt)]
    rfl
  · rw [hds, BydTimestampToHumanDate_str]

/-- Witness of C3 as amended: a record whose two timestamps are the string
"abc(", which has a "(" and no ")". -/
theorem BydTimestampToHumanDate_string_witness :
    (getProp openDateInvoice "__metadata" >>= fun m => getProp m "type") =
      .ok (.str "ByDOData.Invoice") ∧
    looseEq (.str "abc(") (.str "abc(") = .ok true ∧
    lastIndexOf "abc(".data ')' < lastIndexOf "abc(".data '(' ∧
    BydTimestampToHumanDate (.str "abc(") = .date none ∧
    ∃ qs, formatData openDateInvoice (some "ObjectID") = .obj qs ∧
      lookup "dateStr" qs = .date none := by
  obtain ⟨t, hd, _, _, hnone, _, hrec⟩ :=
    BydTimestampToHumanDate_string "abc(" openDateInvoice (some "ObjectID")
      "ByDOData.Invoice" (.str "abc(") (.str "abc(") true rfl rfl rfl rfl rfl
  have hlt : lastIndexOf "abc(".data ')' < lastIndexOf "abc(".data '(' := by decide
  have ht : t = none := hnone hlt
  subst ht
  exact ⟨rfl, rfl, hlt, hd, hrec⟩

/-- C3 fails as stated: the strings "", "1600183555000" and "abc(" have no
matching wrapper, and `BydTimestampToHumanDate` returns a Date for each of
them (time value 0 for the first two, the invalid date for the third), not
`null`; the record of `formatData` has that Date as `dateStr`. -/
theorem BydTimestampToHumanDate_string_counterexample :
    BydTimestampToHumanDate (.str "") = .date (some 0) ∧
    BydTimestampToHumanDate (.str "1600183555000") = .date (some 0) ∧
    BydTimestampToHumanDate (.str "abc(") = .date none ∧
    BydTimestampToHumanDate (.str "") ≠ .null ∧
    getProp (formatData blankDateInvoice (some "ObjectID")) "dateStr" = .ok (.date (some 0)) :=
  ⟨rfl, rfl, rfl, ne_null_of_isNull _ rfl, rfl⟩

/-! ### Decimal texts and their Number -/

theorem toString_data (n : Nat) : (toString n).data = Nat.toDigits 10 n := rfl

theorem digitChar_spec : ∀ k, k < 10 →
    isDecDigit (Nat.digitChar k) = true ∧ radixDigit 10 (Nat.digitChar k) = some k := by
  decide

/-- The digits `toDigitsCore` puts in front of its accumulator are decimal
digits and denote the number. -/
theorem toDigitsCore_spec (fuel : Nat) : ∀ (n : Nat) (ds : List Char), n < fuel →
    ∃ pre, Nat.toDigitsCore 10 fuel n ds = pre ++ ds ∧ pre ≠ [] ∧
      (∀ c ∈ pre, isDecDigit c = true) ∧ digitsVal 10 pre = n := by
  induction fuel with
  | zero => intro n ds h; omega
  | succ fuel ih =>
    intro n ds h
    have hd := digitChar_spec (n % 10) (Nat.mod_lt _ (by decide))
    by_cases h0 : n / 10 = 0
    · refine ⟨[Nat.digitChar (n % 10)], ?_, by simp, ?_, ?_⟩
      · simp [Nat.toDigitsCore, h0]
      · intro c hc
        rw [List.mem_singleton] at hc
        rw [hc]
        exact hd.1
      · have hlt : n < 10 := by omega
        simp only [digitsVal, List.foldl_cons, List.foldl_nil, hd.2, Option.getD_some]
        omega
    · have hlt : n / 10 < fuel := by omega
      obtain ⟨pre, he, _, hall, hval⟩ := ih (n / 10) (Nat.digitChar (n % 10) :: ds) hlt
      refine ⟨pre ++ [Nat.digitChar (n % 10)], ?_, by simp, ?_, ?_⟩
      · simp [Nat.toDigitsCore, h0, he]
      · intro c hc
        rcases List.mem_append.1 hc with hc | hc
        · exact hall c hc
        · rw [List.mem_singleton] at hc
          rw [hc]
          exact hd.1
      · simp only [digitsVal] at hval ⊢
        rw [List.foldl_append, hval]
        simp only [List.foldl_cons, List.foldl_nil, hd.2, Option.getD_some]
        omega

theorem toDigits_spec (n : Nat) :
    Nat.toDigits 10 n ≠ [] ∧ (∀ c ∈ Nat.toDigits 10 n, isDecDigit c = true) ∧
      digitsVal 10 (Nat.toDigits 10 n) = n := by
  obtain ⟨pre, he, hne, hall, hval⟩ := toDigitsCore_spec (n + 1) n [] (Nat.lt_succ_self n)
  rw [List.append_nil] at he
  unfold Nat.toDigits
  rw [he]
  exact ⟨hne, hall, hval⟩

theorem isDecDigit_not_whiteSpace (c : Char) (h : isDecDigit c = true) :
    isStrWhiteSpace c = false := by
  simp only [isDecDigit, Bool.and_eq_true, decide_eq_true_eq] at h
  simp only [isStrWhiteSpace, Bool.or_eq_false_iff, Bool.and_eq_false_iff,
    decide_eq_false_iff_not]
  omega

theorem dropWhile_whiteSpace_digits (l : List Char) (hall : ∀ c ∈ l, isDecDigit c = true) :
    l.dropWhile isStrWhiteSpace = l := by
  cases l with
  | nil => rfl
  | cons c cs =>
    have := isDecDigit_not_whiteSpace c (hall c (by simp))
    simp [List.dropWhile_cons, this]

theorem trimWhiteSpace_digits (l : List Char) (hall : ∀ c ∈ l, isDecDigit c = true) :
    trimWhiteSpace l = l := by
  unfold trimWhiteSpace
  rw [dropWhile_whiteSpace_digits l hall, dropWhile_whiteSpace_digits l.reverse
    (fun c hc => hall c (List.mem_reverse.1 hc)), List.reverse_reverse]

theorem parseUnsignedDecimal_digits (l : List Char) (hne : l ≠ [])
    (hall : ∀ c ∈ l, isDecDigit c = true) :
    parseUnsignedDecimal l = some (digitsVal 10 l, 0) := by
  have h1 : l.takeWhile isDecDigit = l := List.takeWhile_eq_self_iff.2 hall
  have h2 : l.dropWhile isDecDigit = [] := List.dropWhile_eq_nil_iff.2 hall
  have h3 : l.isEmpty = false := by
    cases l with
    | nil => exact absurd rfl hne
    | cons c cs => rfl
  simp [parseUnsignedDecimal, h1, h2, h3, parseExponent]

theorem parseStrDecimal_digits (l : List Char) (hne : l ≠ [])
    (hall : ∀ c ∈ l, isDecDigit c = true) :
    parseStrDecimal l = some (roundToNumber false (digitsVal 10 l) 0) := by
  cases l with
  | nil => exact absurd rfl hne
  | cons c cs =>
    have hc : isDecDigit c = true := hall c (by simp)
    have hplus : c ≠ '+' := by
      intro e
      rw [e] at hc
      exact absurd hc (by decide)
    have hminus : c ≠ '-' := by
      intro e
      rw [e] at hc
      exact absurd hc (by decide)
    have hI : c ≠ 'I' := by
      intro e
      rw [e] at hc
      exact absurd hc (by decide)
    have hsb : (match c :: cs with
        | '+' :: r => (false, r)
        | '-' :: r => (true, r)
        | r => (false, r)) = (false, c :: cs) := by
      split
      · next h => injection h with h1 _; exact absurd h1 hplus
      · next h => injection h with h1 _; exact absurd h1 hminus
      · rfl
    have hinf : ¬ (c :: cs = "Infinity".data) := by
      intro e
      injection e with e1 _
      exact hI e1
    simp only [parseStrDecimal, hsb, hinf, if_false,
      parseUnsignedDecimal_digits (c :: cs) hne hall, Option.map_some']

theorem stringToNumber_digits (l : List Char) (hne : l ≠ [])
    (hall : ∀ c ∈ l, isDecDigit c = true) :
    stringToNumber l = roundToNumber false (digitsVal 10 l) 0 := by
  have h3 : l.isEmpty = false := by
    cases l with
    | nil => exact absurd rfl hne
    | cons c cs => rfl
  simp [stringToNumber, trimWhiteSpace_digits l hall, h3, parseStrDecimal_digits l hne hall]

theorem log2Aux_le (fuel : Nat) : ∀ (n k : Nat), n < 2 ^ (k + 1) → log2Aux fuel n ≤ k := by
  induction fuel with
  | zero => intro n k _; exact Nat.zero_le k
  | succ fuel ih =>
    intro n k h
    by_cases h2 : n < 2
    · simp [log2Aux, h2]
    · simp only [log2Aux, h2, if_false]
      cases k with
      | zero => simp at h; omega
      | succ k =>
        have : n / 2 < 2 ^ (k + 1) := by
          rw [Nat.div_lt_iff_lt_mul (by decide)]
          rw [Nat.pow_succ] at h
          exact h
        have := ih (n / 2) k this
        omega

theorem roundHalfEven_one (a : Nat) : roundHalfEven a 1 = a := by
  simp [roundHalfEven, Nat.mod_one]

/-- An integer below `2^53` is its own nearest double. -/
theorem roundDouble_exact (n : Nat) (h : n < 2 ^ 53) :
    ∃ p q, roundDouble n 1 = some (p, q) ∧ 0 < q ∧ p = n * q := by
  by_cases h0 : n = 0
  · exact ⟨0, 1, by simp [roundDouble, h0], by decide, by simp [h0]⟩
  · have hlog : log2 n ≤ 52 := log2Aux_le n n 52 h
    have hfl : floorLog2 n 1 ≤ 52 := by
      have h1 : log2 1 = 0 := by decide
      simp only [floorLog2, h1]
      split <;> omega
    have he : max (floorLog2 n 1) (-1022) ≤ 52 := by omega
    refine ⟨n * 2 ^ (52 - max (floorLog2 n 1) (-1022)).toNat,
      2 ^ (52 - max (floorLog2 n 1) (-1022)).toNat, ?_, Nat.two_pow_pos _, rfl⟩
    simp only [roundDouble, h0, if_false, he, if_true, roundHalfEven_one]

theorem timeClip_roundToNumber (n : Nat) (h : n ≤ 8640000000000000) :
    timeClip (roundToNumber false n 0) = some (n : Int) := by
  obtain ⟨p, q, hr, hq, hp⟩ := roundDouble_exact n (by omega)
  have hnot : ¬ (8640000000000000 * q < p) := by
    rw [hp]
    exact Nat.not_lt.2 (Nat.mul_le_mul_right q h)
  have hdiv : p / q = n := by
    rw [hp]
    exact Nat.mul_div_cancel n hq
  simp [roundToNumber, hr, timeClip, hnot, hdiv]

theorem lastIndexOfAux_append (c : Char) (xs ys : List Char) (i : Nat) (acc : Int) :
    lastIndexOfAux c (xs ++ ys) i acc =
      lastIndexOfAux c ys (i + xs.length) (lastIndexOfAux c xs i acc) := by
  induction xs generalizing i acc with
  | nil => rfl
  | cons x xs ih =>
    show lastIndexOfAux c (xs ++ ys) (i + 1) (if x = c then (i : Int) else acc) =
      lastIndexOfAux c ys (i + (xs.length + 1))
        (lastIndexOfAux c xs (i + 1) (if x = c then (i : Int) else acc))
    rw [ih, show i + 1 + xs.length = i + (xs.length + 1) by omega]

/-- The slice the decoder takes from `/Date(` digits `)/` is the digits. -/
theorem substring_wrapped (ds : List Char) (hall : ∀ c ∈ ds, isDecDigit c = true) :
    substring ("/Date(".data ++ ds ++ ")/".data)
      (lastIndexOf ("/Date(".data ++ ds ++ ")/".data) '(' + 1)
      (lastIndexOf ("/Date(".data ++ ds ++ ")/".data) ')') = ds := by
  have hopen : '(' ∉ ds := by
    intro hm
    exact absurd (hall _ hm) (by decide)
  have hclose : ')' ∉ ds := by
    intro hm
    exact absurd (hall _ hm) (by decide)
  have h1 : lastIndexOf ("/Date(".data ++ ds ++ ")/".data) '(' = 5 := by
    unfold lastIndexOf
    rw [List.append_assoc, lastIndexOfAux_append, lastIndexOfAux_not_mem]
    · rfl
    · intro hm
      rcases List.mem_append.1 hm with hm | hm
      · exact hopen hm
      · exact absurd hm (by decide)
  have h2 : lastIndexOf ("/Date(".data ++ ds ++ ")/".data) ')' = ((6 + ds.length : Nat) : Int) := by
    unfold lastIndexOf
    rw [lastIndexOfAux_append, lastIndexOfAux_append, lastIndexOfAux_not_mem _ ds _ _ hclose]
    simp [lastIndexOfAux]
    omega
  rw [h1, h2]
  have e1 : ((5 : Int) + 1).toNat = 6 := by decide
  have e2 : (((6 + ds.length : Nat) : Int)).toNat = 6 + ds.length := Int.toNat_ofNat _
  have e3 : ("/Date(".data ++ ds ++ ")/".data).length = 6 + ds.length + 2 := by
    simp
    omega
  simp only [substring, e1, e2, e3]
  have m1 : min 6 (6 + ds.length + 2) = 6 := by omega
  have m2 : min (6 + ds.length) (6 + ds.length + 2) = 6 + ds.length := by omega
  have m3 : min 6 (6 + ds.length) = 6 := by omega
  have m4 : max 6 (6 + ds.length) - 6 = ds.length := by omega
  rw [m1, m2, m3, m4, List.append_assoc]
  have : List.drop 6 ("/Date(".data ++ (ds ++ ")/".data)) = ds ++ ")/".data := rfl
  rw [this, List.take_left]

theorem BydTimestampToHumanDate_wrapped (n : Nat) (h : n ≤ 8640000000000000) :
    BydTimestampToHumanDate (.str ("/Date(" ++ toString n ++ ")/")) = .date (some (n : Int)) := by
  obtain ⟨hne, hall, hval⟩ := toDigits_spec n
  rw [BydTimestampToHumanDate_str]
  have hd : ("/Date(" ++ toString n ++ ")/").data =
      "/Date(".data ++ Nat.toDigits 10 n ++ ")/".data := by
    rw [String.data_append, String.data_append, toString_data]
  rw [hd, substring_wrapped _ hall, stringToNumber_digits _ hne hall, hval,
    timeClip_roundToNumber n h]

/-- C2, as the code has it: for every non-negative integer `n` up to
`8640000000000000`, the largest time value of a Date, decoding the string
`/Date(`, the decimal digits of `n`, `)/` yields the instant `n` milliseconds
after the epoch; decoding "/Date(1600183555000)/" yields the time value
1600183555000, which is the UTC timestamp 2020-09-15T15:25:55.000Z. -/
theorem BydTimestampToHumanDate_decodes (n : Nat) (h : n ≤ 8640000000000000) :
    BydTimestampToHumanDate (.str ("/Date(" ++ toString n ++ ")/")) = .date (some (n : Int)) ∧
    BydTimestampToHumanDate (.str "/Date(1600183555000)/") = .date (some 1600183555000) ∧
    utcTimestamp 1600183555000 = "2020-09-15T15:25:55.000Z" :=
  ⟨BydTimestampToHumanDate_wrapped n h, rfl, by decide⟩

/-- Witness of C2 as amended, at the timestamp of the example. -/
theorem BydTimestampToHumanDate_decodes_witness :
    1600183555000 ≤ 8640000000000000 ∧
    (BydTimestampToHumanDate (.str ("/Date(" ++ toString 1600183555000 ++ ")/")) =
        .date (some ((1600183555000 : Nat) : Int)) ∧
      BydTimestampToHumanDate (.str "/Date(1600183555000)/") = .date (some 1600183555000) ∧
      utcTimestamp 1600183555000 = "2020-09-15T15:25:55.000Z") :=
  ⟨by decide, BydTimestampToHumanDate_decodes 1600183555000 (by decide)⟩

/-- C2 fails as stated: the integer 8640000000000001 decodes to the invalid
date, not to an instant; and the time value 1600183555000 is not the UTC
timestamp 2020-09-15T15:45:55.000Z. -/
theorem BydTimestampToHumanDate_decodes_counterexample :
    BydTimestampToHumanDate (.str ("/Date(" ++ toString 8640000000000001 ++ ")/")) =
      .date none ∧
    utcTimestamp 1600183555000 ≠ "2020-09-15T15:45:55.000Z" :=
  ⟨rfl, by decide⟩

end BydDelta
